import Mathlib

/-!
Verification development for the RDF transform stage of the msc_project ETL
pipeline (`src/etl_ontology/etl/transform.py`, with configuration from
`src/etl_ontology/config/ontology_config.py` and graph assembly from
`src/etl_ontology/ontology/create_populate_ontology.py`).

The embedding is shallow: each Python function of the transform stage is
translated into an executable Lean definition.  Python exceptions are made
explicit with an error type (`PyError`); a function that can raise returns
`Except PyError α`.  `pandas` NaN cells are modelled as `Option` values.
File I/O (reading processed CSVs, writing and reading back chunk `.ttl`
files) is an external collaborator: the data that would be read is passed in
as an argument, and a chunk-file read that may fail is passed in as an
`Except PyError RGraph` value.

Modelling notes for Python primitives used by `transform.py`:
* `int(float(s))` (the `'%Y'` date branch) is modelled for plain decimal
  notation (optional sign, digits, optional fractional part) plus the
  `inf`/`nan` spellings; exponent and underscore forms are outside the
  model's domain (no claim depends on them).
* `datetime.strptime` is modelled for exactly the three format strings the
  code can pass (`'%d %b %y'`, `'%Y-%m-%d'`, `'%Y-%m'`), following CPython's
  `_strptime` regexes and `datetime` range validation.
* `dateutil.parser.parse` (the `'YYYY MMM'` branch) is an external library;
  it is modelled from the spec, see `dateutilYearMonth`.
* string predicates (`\w`, `.lower()`, `.upper()`, `.isdigit()`) are
  modelled over the ASCII range, which covers every input the claims and
  the configuration exercise.
-/

namespace ETL

/-- Python exceptions distinguished by the `except` clauses in `transform.py`:
`except ValueError` in `parse_date`, bare `except Exception` elsewhere. -/
inductive PyError where
  | valueError (msg : String)
  | keyError (key : String)
  | indexError (msg : String)
  | overflowError (msg : String)
  | attributeError (msg : String)
deriving DecidableEq, Repr

/-- Result of a Python computation: either a value or an uncaught exception. -/
abbrev PyResult (α : Type) := Except PyError α

/-! ## Python string primitives -/

/-- The whitespace characters recognised by `str.strip` / `str.split()`
(ASCII range). -/
def isPySpace (c : Char) : Bool :=
  c = ' ' || c = '\t' || c = '\n' || c = '\r' || c = '\x0b' || c = '\x0c'

/-- `str.strip()`. -/
def pyStrip (s : String) : String :=
  String.mk (((s.data.dropWhile isPySpace).reverse.dropWhile isPySpace).reverse)

/-- ASCII `str.lower` on one character. -/
def lowerChar (c : Char) : Char :=
  if 'A' ≤ c && c ≤ 'Z' then Char.ofNat (c.toNat + 32) else c

/-- ASCII `str.upper` on one character. -/
def upperChar (c : Char) : Char :=
  if 'a' ≤ c && c ≤ 'z' then Char.ofNat (c.toNat - 32) else c

/-- `str.lower()` (ASCII range). -/
def lowerStr (s : String) : String := String.mk (s.data.map lowerChar)

/-- `str.upper()` (ASCII range). -/
def upperStr (s : String) : String := String.mk (s.data.map upperChar)

/-- Boolean list-prefix test. -/
def isPrefixB : List Char → List Char → Bool
  | [], _ => true
  | _ :: _, [] => false
  | a :: as, b :: bs => a = b && isPrefixB as bs

/-- Boolean list-suffix test. -/
def isSuffixB (a b : List Char) : Bool := isPrefixB a.reverse b.reverse

/-- Boolean contiguous-sublist test: `a` occurs inside `b`. -/
def isInfixB (a : List Char) : List Char → Bool
  | [] => isPrefixB a []
  | b :: bs => isPrefixB a (b :: bs) || isInfixB a bs

/-- Python `s.endswith(suf)`. -/
def pyEndsWith (s suf : String) : Bool := isSuffixB suf.data s.data

/-- Python `a in b` on strings (substring containment). -/
def pyInStr (a b : String) : Bool := isInfixB a.data b.data

/-- `str.split()` with no argument: split on whitespace runs, dropping
empty pieces. -/
def splitWsAux : List Char → List Char → List String
  | [], acc => if acc.isEmpty then [] else [String.mk acc.reverse]
  | c :: cs, acc =>
    if isPySpace c then
      if acc.isEmpty then splitWsAux cs [] else String.mk acc.reverse :: splitWsAux cs []
    else splitWsAux cs (c :: acc)

/-- Python `s.split()` (no separator argument). -/
def pySplitWs (s : String) : List String := splitWsAux s.data []

/-- `str.split(sep)` with a one-character separator: keeps empty pieces,
always returns at least one piece. -/
def splitOnAux (sep : Char) : List Char → List Char → List String
  | [], acc => [String.mk acc.reverse]
  | c :: cs, acc =>
    if c = sep then String.mk acc.reverse :: splitOnAux sep cs []
    else splitOnAux sep cs (c :: acc)

/-- Python `s.split(sep)` for a single-character separator. -/
def pySplitOn (s : String) (sep : Char) : List String := splitOnAux sep s.data []

/-- Decimal value of a digit list (most significant first). -/
def digitsVal (cs : List Char) : Nat := cs.foldl (fun a c => 10 * a + (c.toNat - 48)) 0

/-- Python `int(s)` on a string: strip whitespace, optional sign, digits;
anything else raises `ValueError` (digit-group underscores are outside the
model's domain; no claim depends on them). -/
def pyIntOfChars : List Char → PyResult Int
  | '-' :: rest =>
    if rest.all Char.isDigit && !rest.isEmpty then .ok (-(digitsVal rest : Int))
    else .error (.valueError "invalid literal for int")
  | '+' :: rest =>
    if rest.all Char.isDigit && !rest.isEmpty then .ok (digitsVal rest : Int)
    else .error (.valueError "invalid literal for int")
  | cs =>
    if cs.all Char.isDigit && !cs.isEmpty then .ok (digitsVal cs : Int)
    else .error (.valueError "invalid literal for int")

/-- Python `int(s)`. -/
def pyIntOfStr (s : String) : PyResult Int := pyIntOfChars (pyStrip s).data

/-- Leading sign of a float literal. -/
def splitSign : List Char → Bool × List Char
  | '-' :: rest => (true, rest)
  | '+' :: rest => (false, rest)
  | cs => (false, cs)

/-- Split a character list at every `'.'`. -/
def splitDotAux : List Char → List Char → List (List Char)
  | [], acc => [acc.reverse]
  | c :: cs, acc =>
    if c = '.' then acc.reverse :: splitDotAux cs [] else splitDotAux cs (c :: acc)

/-- Integer part of an unsigned decimal float literal (`"2021"`, `"2021.0"`,
`".5"`, `"5."`); `none` when the characters are not such a literal. -/
def floatBody (cs : List Char) : Option Nat :=
  match splitDotAux cs [] with
  | [ip] => if ip.all Char.isDigit && !ip.isEmpty then some (digitsVal ip) else none
  | [ip, fp] =>
    if (ip.all Char.isDigit && fp.all Char.isDigit) && !(ip.isEmpty && fp.isEmpty) then
      some (digitsVal ip)
    else none
  | _ => none

/-- Python `int(float(s))`: parse a decimal float literal and truncate toward
zero.  `inf` overflows, `nan` is a `ValueError`, unparsable strings are a
`ValueError` (raised by `float`). -/
def pyFloatTruncInt (s : String) : PyResult Int :=
  let body := splitSign (pyStrip s).data
  let low := body.2.map lowerChar
  if low = "inf".data || low = "infinity".data then
    .error (.overflowError "cannot convert float infinity to integer")
  else if low = "nan".data then
    .error (.valueError "cannot convert float NaN to integer")
  else
    match floatBody body.2 with
    | some n => .ok (if body.1 then -(n : Int) else (n : Int))
    | none => .error (.valueError "could not convert string to float")

/-! ## Calendar helpers (the validation done by `datetime`) -/

/-- Gregorian leap year. -/
def isLeap (y : Nat) : Bool := (y % 4 = 0 && y % 100 ≠ 0) || y % 400 = 0

/-- Days in a month. -/
def daysInMonth (y m : Nat) : Nat :=
  if m = 2 then (if isLeap y then 29 else 28)
  else if m = 4 || m = 6 || m = 9 || m = 11 then 30
  else 31

/-- `strptime` `%Y`: exactly four digits. -/
def parse4Digits : List Char → Option (Nat × List Char)
  | a :: b :: c :: d :: rest =>
    if [a, b, c, d].all Char.isDigit then some (digitsVal [a, b, c, d], rest) else none
  | _ => none

/-- `strptime` `%m`, two-digit alternatives (`1[0-2]|0[1-9]`). -/
def parseMonth2 : List Char → Option (Nat × List Char)
  | a :: b :: rest =>
    if a = '1' && b.isDigit && digitsVal [a, b] ≤ 12 then some (digitsVal [a, b], rest)
    else if a = '0' && b.isDigit && b ≠ '0' then some (digitsVal [b], rest)
    else none
  | _ => none

/-- `strptime` `%m`, one-digit alternative (`[1-9]`). -/
def parseMonth1 : List Char → Option (Nat × List Char)
  | a :: rest => if a.isDigit && a ≠ '0' then some (digitsVal [a], rest) else none
  | [] => none

/-- `strptime` `%d`, two-digit alternatives (`3[01]|[12]\d|0[1-9]`). -/
def parseDay2 : List Char → Option (Nat × List Char)
  | a :: b :: rest =>
    if a = '3' && (b = '0' || b = '1') then some (digitsVal [a, b], rest)
    else if (a = '1' || a = '2') && b.isDigit then some (digitsVal [a, b], rest)
    else if a = '0' && b.isDigit && b ≠ '0' then some (digitsVal [b], rest)
    else none
  | _ => none

/-- `strptime` `%d`, one-digit alternative (`[1-9]`). -/
def parseDay1 : List Char → Option (Nat × List Char)
  | a :: rest => if a.isDigit && a ≠ '0' then some (digitsVal [a], rest) else none
  | [] => none

/-- After the month of `%Y-%m-%d`: a literal `'-'`, then the day, then end of
input. -/
def ymdTail (y : Nat) : Nat × List Char → Option (Nat × Nat × Nat)
  | (m, '-' :: r3) =>
    (match parseDay2 r3 with
     | some (d, []) => some (y, m, d)
     | _ => none) <|>
    (match parseDay1 r3 with
     | some (d, []) => some (y, m, d)
     | _ => none)
  | _ => none

/-- `datetime.strptime(s, '%Y-%m-%d')`, returning `(year, month, day)`;
`none` models the `ValueError`. -/
def strptimeYMD (s : String) : Option (Nat × Nat × Nat) :=
  match parse4Digits s.data with
  | some (y, '-' :: r2) =>
    match ((parseMonth2 r2).bind (ymdTail y)) <|> ((parseMonth1 r2).bind (ymdTail y)) with
    | some (y, m, d) => if 1 ≤ y && d ≤ daysInMonth y m then some (y, m, d) else none
    | none => none
  | _ => none

/-- `datetime.strptime(s, '%Y-%m')`, returning `(year, month)`. -/
def strptimeYM (s : String) : Option (Nat × Nat) :=
  match parse4Digits s.data with
  | some (y, '-' :: r2) =>
    if 1 ≤ y then
      (match parseMonth2 r2 with
       | some (m, []) => some (y, m)
       | _ => none) <|>
      (match parseMonth1 r2 with
       | some (m, []) => some (y, m)
       | _ => none)
    else none
  | _ => none

/-- Lowercased three-letter month abbreviations, as matched by `%b`. -/
def monthAbbrevs : List String :=
  ["jan", "feb", "mar", "apr", "may", "jun", "jul", "aug", "sep", "oct", "nov", "dec"]

/-- Full lowercased English month names (for the lenient month-name model). -/
def monthFullNames : List String :=
  ["january", "february", "march", "april", "may", "june", "july", "august",
   "september", "october", "november", "december"]

/-- Require at least one whitespace character, then drop the run (`strptime`
turns literal whitespace in the format into `\s+`). -/
def dropSpaces1 : List Char → Option (List Char)
  | c :: cs => if isPySpace c then some (cs.dropWhile isPySpace) else none
  | [] => none

/-- `strptime` `%b`: a case-insensitive three-letter month abbreviation. -/
def matchAbbrev : List Char → Option (Nat × List Char)
  | a :: b :: c :: rest =>
    ((monthAbbrevs.findIdx? (fun nm => nm = String.mk [lowerChar a, lowerChar b, lowerChar c])).map
      (fun i => (i + 1, rest)))
  | _ => none

/-- `datetime.strptime(s, '%d %b %y')`, returning `(year, month, day)`;
`%y` maps `00–68` to `2000–2068` and `69–99` to `1969–1999`. -/
def strptimeDBY (s : String) : Option (Nat × Nat × Nat) :=
  let dayCont := fun (dr : Nat × List Char) =>
    (dropSpaces1 dr.2).bind fun r2 =>
    (matchAbbrev r2).bind fun mr =>
    (dropSpaces1 mr.2).bind fun r4 =>
    match r4 with
    | [a, b] =>
      if a.isDigit && b.isDigit then
        let yy := digitsVal [a, b]
        let y := if yy ≤ 68 then 2000 + yy else 1900 + yy
        if dr.1 ≤ daysInMonth y mr.1 then some (y, mr.1, dr.1) else none
      else none
    | _ => none
  (parseDay2 s.data >>= dayCont) <|> (parseDay1 s.data >>= dayCont)

/-- Zero-padded two-digit field of `strftime`. -/
def pad2 (n : Nat) : String := if n < 10 then "0" ++ toString n else toString n

/-- Zero-padded four-digit `%Y` of `strftime`. -/
def pad4 (n : Nat) : String :=
  (if n < 10 then "000" else if n < 100 then "00" else if n < 1000 then "0" else "") ++ toString n

/-- `strftime('%Y-%m-%d')`. -/
def fmtYMD (y m d : Nat) : String := pad4 y ++ "-" ++ pad2 m ++ "-" ++ pad2 d

/-- `strftime('%Y-%m')`. -/
def fmtYM (y m : Nat) : String := pad4 y ++ "-" ++ pad2 m

/-- Modelled from the spec: the `'YYYY MMM'` format branch calls the external
`dateutil.parser.parse` (not part of this repository), which the spec
describes as "free-form month-name dates (e.g. `2019 Mar`): parse leniently
(best-effort natural-language date parsing); emit `YearMonth`".  We model the
month-name forms the pipeline exercises — a 4-digit year token and an English
month name or 3-letter abbreviation, in either order — and raise `ValueError`
on anything else. -/
def dateutilYearMonth (s : String) : PyResult (Nat × Nat) :=
  let isYear := fun (t : String) => t.data.all Char.isDigit && t.data.length = 4
  let monthIdx := fun (t : String) =>
    (monthAbbrevs.findIdx? (fun nm => nm = lowerStr t)).orElse
      (fun _ => monthFullNames.findIdx? (fun nm => nm = lowerStr t))
  match pySplitWs s with
  | [t1, t2] =>
    if isYear t1 then
      match monthIdx t2 with
      | some i => .ok (digitsVal t1.data, i + 1)
      | none => .error (.valueError "Unknown string format")
    else if isYear t2 then
      match monthIdx t1 with
      | some i => .ok (digitsVal t2.data, i + 1)
      | none => .error (.valueError "Unknown string format")
    else .error (.valueError "Unknown string format")
  | _ => .error (.valueError "Unknown string format")

/-! ## `parse_date` -/

/-- The seven entries of `ontology_config.DATE_FORMATS`; `parse_date`
dispatches on which entry the supplied format string equals. -/
inductive DateFormat where
  | YYYY
  | ACADEMIC_YEAR
  | DD_MMM_YY
  | YYYY_MM_DD
  | YYYY_MM
  | YYYY_MMM
  | YYYY_Q
deriving DecidableEq, Repr

/-- The quarter dictionary `{'Q1': '01', 'Q2': '04', 'Q3': '07', 'Q4': '10'}`. -/
def quarterMonth (q : String) : Option String :=
  [("Q1", "01"), ("Q2", "04"), ("Q3", "07"), ("Q4", "10")].lookup q

/-- One iteration of the format loop in `parse_date`: the body of the `try`
for a single format.  `Except.error` is a raised exception; the caller
catches only `ValueError`. -/
def tryFormat (ds : String) : DateFormat → PyResult String
  | .YYYY => (pyFloatTruncInt ds).map toString
  | .ACADEMIC_YEAR => (pyIntOfStr (String.mk (ds.data.take 4))).map toString
  | .DD_MMM_YY =>
    match strptimeDBY ds with
    | some (y, m, d) => .ok (fmtYMD y m d)
    | none => .error (.valueError "time data does not match format")
  | .YYYY_MM_DD =>
    match strptimeYMD ds with
    | some (y, m, d) => .ok (fmtYMD y m d)
    | none => .error (.valueError "time data does not match format")
  | .YYYY_MM =>
    match strptimeYM ds with
    | some (y, m) => .ok (fmtYM y m)
    | none => .error (.valueError "time data does not match format")
  | .YYYY_MMM =>
    match dateutilYearMonth ds with
    | .ok (y, m) => .ok (fmtYM y m)
    | .error e => .error e
  | .YYYY_Q =>
    match pySplitWs ds with
    | [year, q] =>
      match quarterMonth (upperStr q) with
      | some mo => .ok (year ++ "-" ++ mo)
      | none => .error (.keyError (upperStr q))
    | _ => .error (.valueError "values to unpack")

/-- The format loop of `parse_date`: `except ValueError: continue`; any other
exception propagates; exhaustion returns `None`. -/
def parse_date_go (ds : String) : List DateFormat → PyResult (Option String)
  | [] => .ok none
  | f :: rest =>
    match tryFormat ds f with
    | .ok out => .ok (some out)
    | .error (.valueError _) => parse_date_go ds rest
    | .error e => .error e

/-- `parse_date(date_str, date_formats)`.  A `none` input is a pandas NaN
(`pd.isna`); the string input is stripped first.  `ok none` is the Python
return value `None`; `error e` is an uncaught exception. -/
def parse_date (date_str : Option String) (fmts : List DateFormat) : PyResult (Option String) :=
  match date_str with
  | none => .ok none
  | some s => parse_date_go (pyStrip s) fmts

/-! ## Earliest-year extraction and the common watermark -/

/-- `int(x.split('-')[0])` applied to a parsed date string. -/
def yearOfParsed (d : String) : PyResult Int :=
  pyIntOfStr ((pySplitOn d '-').headD "")

/-- The per-row work of `extract_earliest_year`: parse the date cell, then
take the year of the parsed string (`int(x.split('-')[0]) if x else None`,
where the empty string is also falsy). -/
def rowYear (fmts : List DateFormat) (c : String) : PyResult (Option Int) :=
  match parse_date (some c) fmts with
  | .error e => .error e
  | .ok none => .ok none
  | .ok (some d) => if d = "" then .ok none else (yearOfParsed d).map some

/-- Minimum of a list of integers, `none` when empty (models
`Series.min()` skipping NaN). -/
def listMin? : List Int → Option Int
  | [] => none
  | x :: xs =>
    some (match listMin? xs with
          | none => x
          | some m => min x m)

/-- Maximum of a list of integers, `none` when empty. -/
def listMax? : List Int → Option Int
  | [] => none
  | x :: xs =>
    some (match listMax? xs with
          | none => x
          | some m => max x m)

/-- The two `Series.apply` passes of `extract_earliest_year` over the date
column: the first raised exception aborts, otherwise every row's optional
year is collected. -/
def collectRows (fmts : List DateFormat) : List String → PyResult (List (Option Int))
  | [] => .ok []
  | c :: cs =>
    match rowYear fmts c with
    | .error e => .error e
    | .ok y =>
      match collectRows fmts cs with
      | .error e => .error e
      | .ok ys => .ok (y :: ys)

/-- `extract_earliest_year` on the date column of one source's processed
file (the file read is the external collaborator; `cells` is the stringified
date column).  The whole body runs under `except Exception: return None`, so
any row that raises makes the source yield `none`; otherwise the result is
the minimum year over rows whose parse succeeded, `none` if there are none. -/
def extract_earliest_year (cells : List String) (fmts : List DateFormat) : Option Int :=
  match collectRows fmts cells with
  | .error _ => none
  | .ok ys => listMin? (ys.filterMap id)

/-! ## RDF model

`rdflib.Graph` is a set of (subject, predicate, object) triples; `Graph.add`
inserts, `+=` unions.  The transform never creates blank nodes (only
`URIRef`s and `Literal`s), so Turtle serialisation and re-parsing preserve
the triple set exactly and a graph is faithfully a finite set of triples. -/

/-- An RDF object position: a URI reference or a typed literal. -/
inductive Node where
  | uri (u : String)
  | lit (lex dt : String)
deriving DecidableEq, Repr

/-- A triple: subject URI, predicate URI, object node. -/
abbrev Triple := String × String × Node

/-- A graph as a finite set of triples. -/
abbrev RGraph := Finset Triple

/-- `rdf:type`. -/
def rdfType : String := "http://www.w3.org/1999/02/22-rdf-syntax-ns#type"

/-- The `time` namespace of `ontology_config.NAMESPACES`. -/
def timeNS : String := "http://example.org/time#"

/-- The XSD namespace. -/
def xsdNS : String := "http://www.w3.org/2001/XMLSchema#"

/-- Default literal datatype (`XSD.string`). -/
def xsdString : String := xsdNS ++ "string"

/-- `map_date_to_ontology(date_str, graph, common_earliest_year)`: returns
the updated graph and the time-entity URI, `none` on failure.  The body runs
under `except Exception: return None`, which catches the `ValueError` of
`int` on a malformed first segment and of unpacking a 9-character string
that does not split into exactly two pieces. -/
def map_date_to_ontology (date_str : String) (g : RGraph) (cey : Int) :
    RGraph × Option String :=
  if date_str = "" then (g, none)
  else
    match yearOfParsed date_str with
    | .error _ => (g, none)
    | .ok y =>
      if y < cey then (g, none)
      else if date_str.length = 4 then
        let u := timeNS ++ "Year/" ++ date_str
        (insert (u, timeNS ++ "year", Node.lit date_str (xsdNS ++ "gYear"))
          (insert (u, rdfType, Node.uri (timeNS ++ "Year")) g), some u)
      else if date_str.length = 7 then
        let u := timeNS ++ "YearMonth/" ++ date_str
        (insert (u, timeNS ++ "yearMonth", Node.lit date_str (xsdNS ++ "gYearMonth"))
          (insert (u, rdfType, Node.uri (timeNS ++ "YearMonth")) g), some u)
      else if date_str.length = 10 then
        let u := timeNS ++ "FullDate/" ++ date_str
        (insert (u, timeNS ++ "date", Node.lit date_str (xsdNS ++ "date"))
          (insert (u, rdfType, Node.uri (timeNS ++ "FullDate")) g), some u)
      else if date_str.length = 9 then
        match pySplitOn date_str '-' with
        | [sy, ey] =>
          let u := timeNS ++ "AcademicYear/" ++ date_str
          (insert (u, timeNS ++ "endYear", Node.lit ey (xsdNS ++ "gYear"))
            (insert (u, timeNS ++ "startYear", Node.lit sy (xsdNS ++ "gYear"))
              (insert (u, rdfType, Node.uri (timeNS ++ "AcademicYear")) g)), some u)
        | _ => (g, none)
      else (g, none)

/-! ## Location cleaning and validation -/

/-- `clean_location_name`: `location_name[:-3] if location_name.endswith(" ua")
else location_name`. -/
def clean_location_name (nm : String) : String :=
  if pyEndsWith nm " ua" then String.mk (nm.data.take (nm.data.length - 3)) else nm

/-- `validate_location`: the first entry of the reference list whose
lowercased text occurs inside the lowercased candidate.  The reference list
(`valid_locations.yaml`, an external data file) is a parameter. -/
def validate_location (valid_locations : List String) (nm : String) : Option String :=
  valid_locations.find? (fun v => pyInStr (lowerStr v) (lowerStr nm))

/-! ## URI sanitisation -/

/-- `re.sub(r'[^\w\-]', '_', value)` over the ASCII range: `\w` is
alphanumeric or underscore. -/
def sanitize_sub (value : String) : String :=
  String.mk (value.data.map (fun c => if (c.isAlphanum || c = '_') || c = '-' then c else '_'))

/-- `sanitize_uri(value)`: substitute disallowed characters, then test
`value[0].isdigit()` — which raises `IndexError` on an empty string. -/
def sanitize_uri (value : String) : PyResult String :=
  match (sanitize_sub value).data with
  | [] => .error (.indexError "string index out of range")
  | c :: _ => .ok (if c.isDigit then "_" ++ sanitize_sub value else sanitize_sub value)

/-- `str(row['transaction_id']).replace('{', '').replace('}', '')`: removing
every occurrence of a one-character pattern is filtering that character out. -/
def stripBraces (s : String) : String :=
  String.mk (s.data.filter (fun c => !(c = '\x7b' || c = '\x7d')))

/-! ## The row-to-triple mapper -/

/-- One entry of a mapping's `fields` dict (`ontology_config.MAPPINGS`). -/
structure FieldRule where
  property : String
  datatype : Option String := none
  valueMapping : Option (List (String × String)) := none
  valid_values : Option (List String) := none
  object : Bool := false
  cls : Option String := none
deriving DecidableEq, Repr

/-- A `uri_pattern` template: every configured pattern is a literal with one
placeholder, `{transaction_id}` or `{unique_id}`.  `.format` raises
`KeyError` on the placeholder name when called with the other keyword. -/
inductive UriPattern where
  | transactionId (pre suf : String)
  | uniqueId (pre suf : String)
deriving DecidableEq, Repr

/-- One source's mapping descriptor (`MAPPINGS[source_name]`); `date_format`
is normalised to a list (`parse_date` wraps a single string). -/
structure SourceMapping where
  cls : String
  uri_pattern : UriPattern
  date_format : List DateFormat
  fields : List (String × FieldRule)
deriving DecidableEq, Repr

/-- A row: association of column name to cell, `none` being a NaN cell. -/
abbrev Row := List (String × Option String)

/-- `str(cell)`: pandas NaN prints as `nan`. -/
def cellStr : Option String → String
  | none => "nan"
  | some v => v

/-- `mapping['class'].split('#')[-1]`. -/
def lastHashSeg (s : String) : String := (pySplitOn s '#').getLastD ""

/-- The summary dict accumulated per source. -/
structure Summary where
  total_rows : Nat
  mapped_rows : Nat
  skipped_dates : Finset String
  invalid_locations : Finset String
  errors : List String
deriving DecidableEq

/-- The fresh summary created at the start of `load_and_transform_data`. -/
def emptySummary : Summary := ⟨0, 0, ∅, ∅, []⟩

/-- Entity-URI derivation at the top of `transform_row_to_rdf`: the natural
`transaction_id` path strips braces from the stringified cell; the synthetic
path builds `generate_unique_identifier(row, mapping['class'].split('#')[-1])`
with `fresh` standing for the random `uuid4` hex (nondeterministic in the
code, a parameter here). -/
def formatUri (p : UriPattern) (row : Row) (fresh : String) (cls : String) : PyResult String :=
  match row.lookup "transaction_id" with
  | some cell =>
    match p with
    | .transactionId pre suf => .ok (pre ++ stripBraces (cellStr cell) ++ suf)
    | .uniqueId _ _ => .error (.keyError "unique_id")
  | none =>
    match p with
    | .uniqueId pre suf => .ok (pre ++ (lastHashSeg cls ++ "_" ++ fresh) ++ suf)
    | .transactionId _ _ => .error (.keyError "transaction_id")

/-- `str(e)` for the messages appended to `summary['errors']`. -/
def strOfErr : PyError → String
  | .valueError m => m
  | .keyError k => "\x27" ++ k ++ "\x27"
  | .indexError m => m
  | .overflowError m => m
  | .attributeError m => m

/-- `f"Invalid value '{v}' for field '{f}'"`. -/
def invalidValueMsg (v f : String) : String :=
  "Invalid value \x27" ++ v ++ "\x27 for field \x27" ++ f ++ "\x27"

/-- `f"No mapping found for value '{v}' in field '{f}'"`. -/
def noMappingMsg (v f : String) : String :=
  "No mapping found for value \x27" ++ v ++ "\x27 in field \x27" ++ f ++ "\x27"

/-- Outcome of processing one field (one iteration of the `for field` loop):
continue with updated state, return `False` (row fails), or raise. -/
inductive RowStep where
  | cont (g : RGraph) (s : Summary)
  | stop (g : RGraph) (s : Summary)
  | exn (e : PyError) (g : RGraph) (s : Summary)
deriving DecidableEq

/-- The graph carried by a `RowStep`. -/
def RowStep.graph : RowStep → RGraph
  | .cont g _ => g
  | .stop g _ => g
  | .exn _ g _ => g

/-- The summary carried by a `RowStep`. -/
def RowStep.summary : RowStep → Summary
  | .cont _ s => s
  | .stop _ s => s
  | .exn _ _ s => s

/-- `summary['skipped_dates'].add(value)`. -/
def addSkip (s : Summary) (v : String) : Summary :=
  { s with skipped_dates := insert v s.skipped_dates }

/-- The date-field branch of the loop body. -/
def dateStep (cey : Int) (entity : String) (dfmts : List DateFormat) (prop : String)
    (value : String) (g : RGraph) (s : Summary) : RowStep :=
  match parse_date (some value) dfmts with
  | .error e => .exn e g s
  | .ok none => .stop g (addSkip s value)
  | .ok (some pd) =>
    match yearOfParsed pd with
    | .error e => .exn e g s
    | .ok yr =>
      if yr ≥ cey then
        match map_date_to_ontology pd g cey with
        | (g2, some du) => .cont (insert (entity, prop, Node.uri du) g2) s
        | (g2, none) => .stop g2 (addSkip s value)
      else .stop g (addSkip s value)

/-- The relationship (object-property) branch of the loop body. -/
def objStep (entity prop : String) (clsOpt : Option String) (value : String)
    (g : RGraph) (s : Summary) : RowStep :=
  match clsOpt with
  | none => .exn (.keyError "class") g s
  | some c =>
    match sanitize_uri value with
    | .error e => .exn e g s
    | .ok sv =>
      .cont (insert (c ++ "/" ++ sv, rdfType, Node.uri c)
        (insert (entity, prop, Node.uri (c ++ "/" ++ sv)) g)) s

/-- One iteration of the field loop of `transform_row_to_rdf`: skip fields
absent or NaN; check `valid_values`; apply the value map; then dispatch on
date / object / literal. -/
def fieldStep (cey : Int) (entity : String) (dfmts : List DateFormat) (row : Row)
    (fr : String × FieldRule) (g : RGraph) (s : Summary) : RowStep :=
  match row.lookup fr.1 with
  | some (some rawv) =>
    if (match fr.2.valid_values with
        | some vv => decide (rawv ∉ vv)
        | none => false) then
      .stop g { s with errors := s.errors ++ [invalidValueMsg rawv fr.1] }
    else
      match (match fr.2.valueMapping with
             | some vm =>
               match vm.lookup rawv with
               | some v => Except.ok v
               | none => Except.error (noMappingMsg rawv fr.1)
             | none => Except.ok rawv : Except String String) with
      | .error msg => .stop g { s with errors := s.errors ++ [msg] }
      | .ok value =>
        if fr.1 = "date" then dateStep cey entity dfmts fr.2.property value g s
        else if fr.2.object then objStep entity fr.2.property fr.2.cls value g s
        else
          .cont (insert (entity, fr.2.property, Node.lit value (fr.2.datatype.getD xsdString)) g) s
  | _ => .cont g s

/-- The field loop: stop at the first failing or raising field. -/
def processFields (cey : Int) (entity : String) (dfmts : List DateFormat) (row : Row) :
    List (String × FieldRule) → RGraph → Summary → RowStep
  | [], g, s => .cont g s
  | fr :: rest, g, s =>
    match fieldStep cey entity dfmts row fr g s with
    | .cont g2 s2 => processFields cey entity dfmts row rest g2 s2
    | r => r

/-- `transform_row_to_rdf(row, mapping, graph, common_earliest_year, summary)`:
returns the success flag, the graph (mutated in place in Python) and the
summary.  The whole body runs under `except Exception`, which appends
`str(e)` to `errors` and returns `False`; partial triples added before a
failure remain in the graph. -/
def transform_row_to_rdf (row : Row) (m : SourceMapping) (g : RGraph) (cey : Int)
    (s : Summary) (fresh : String) : Bool × RGraph × Summary :=
  match formatUri m.uri_pattern row fresh m.cls with
  | .error e => (false, g, { s with errors := s.errors ++ [strOfErr e] })
  | .ok entity =>
    match processFields cey entity m.date_format row m.fields
        (insert (entity, rdfType, Node.uri m.cls) g) s with
    | .cont g2 s2 => (true, g2, s2)
    | .stop g2 s2 => (false, g2, s2)
    | .exn e g2 s2 => (false, g2, { s2 with errors := s2.errors ++ [strOfErr e] })

/-! ## The chunked graph builder (`load_and_transform_data`) -/

/-- A chunk of the processed file: a list of rows. -/
abbrev Chunk := List Row

/-- The location pass over one chunk:
`chunk['location_name'].apply(clean_location_name).apply(validate_location)`,
`dropna`, drop and rename.  A missing column raises `KeyError`; a NaN cell
makes `clean_location_name` raise (`float` has no `endswith`); a row whose
cleaned name fails validation is dropped; a surviving row has its
`location_name` cell replaced by the canonical name. -/
def locate_rows (vls : List String) : List Row → PyResult (List Row)
  | [] => .ok []
  | r :: rest =>
    match r.lookup "location_name" with
    | none => .error (.keyError "location_name")
    | some none => .error (.attributeError "float object has no attribute endswith")
    | some (some nm) =>
      match locate_rows vls rest with
      | .error e => .error e
      | .ok rest2 =>
        match validate_location vls (clean_location_name nm) with
        | some canon =>
          .ok ((r.map (fun p => if p.1 = "location_name" then (p.1, some canon) else p)) :: rest2)
        | none => .ok rest2

/-- The row loop over one chunk: `total_rows += 1` per row, map the row into
the chunk graph, `mapped_rows += 1` on success.  `fresh j` is the `uuid4`
value the `j`-th row of the chunk would draw. -/
def run_rows (m : SourceMapping) (cey : Int) (fresh : Nat → String) :
    List Row → RGraph → Summary → Nat → RGraph × Summary
  | [], g, s, _ => (g, s)
  | r :: rest, g, s, j =>
    match transform_row_to_rdf r m g cey { s with total_rows := s.total_rows + 1 } (fresh j) with
    | (true, g2, s2) => run_rows m cey fresh rest g2 { s2 with mapped_rows := s2.mapped_rows + 1 } (j + 1)
    | (false, g2, s2) => run_rows m cey fresh rest g2 s2 (j + 1)

/-- The chunk loop: skip empty chunks; run the location pass when the mapping
declares a `location_name` field (`hasLoc`, computed once before the loop)
and skip the chunk if nothing survives; otherwise map every row into a fresh
graph and persist it keyed by the chunk number (the written files are
collected instead of written to disk). -/
def run_chunks (m : SourceMapping) (hasLoc : Bool) (vls : List String) (cey : Int)
    (fresh : Nat → Nat → String) : List Chunk → Nat → Summary →
    PyResult (Summary × List (Nat × RGraph))
  | [], _, s => .ok (s, [])
  | c :: rest, i, s =>
    if c.isEmpty then run_chunks m hasLoc vls cey fresh rest (i + 1) s
    else
      match (if hasLoc then locate_rows vls c else .ok c) with
      | .error e => .error e
      | .ok rows =>
        if hasLoc && rows.isEmpty then
          run_chunks m hasLoc vls cey fresh rest (i + 1) s
        else
          match run_rows m cey (fresh i) rows ∅ s 0 with
          | (g, s2) =>
            match run_chunks m hasLoc vls cey fresh rest (i + 1) s2 with
            | .error e => .error e
            | .ok (sf, outs) => .ok (sf, (i, g) :: outs)

/-- `load_and_transform_data(source_name, common_earliest_year)`: a missing
mapping records one error and returns the fresh summary; otherwise the
chunk loop runs.  The chunked file read is the external collaborator, so the
chunks are an argument; the returned list is the per-chunk intermediate
files that `save_graph_to_disk` would write. -/
def load_and_transform_data (sourceName : String) (mapping? : Option SourceMapping)
    (vls : List String) (chunks : List Chunk) (cey : Int) (fresh : Nat → Nat → String) :
    PyResult (Summary × List (Nat × RGraph)) :=
  match mapping? with
  | none =>
    .ok ({ emptySummary with
           errors := ["No mapping configuration found for source \x27" ++ sourceName ++ "\x27"] }, [])
  | some m =>
    run_chunks m (m.fields.lookup "location_name").isSome vls cey fresh chunks 0 emptySummary

/-! ## Merging chunk files (`combine_ttl_files`) and the ontology union -/

/-- The loop of `combine_ttl_files`: `combined_graph += Graph().parse(f)`
over the sorted chunk files.  Each element of `files` is the outcome of
reading and parsing one chunk file (file I/O is the external collaborator);
the first failure propagates — there is no `try` around the loop. -/
def combineGo (acc : RGraph) : List (PyResult RGraph) → PyResult RGraph
  | [] => .ok acc
  | .error e :: _ => .error e
  | .ok g :: rest => combineGo (acc ∪ g) rest

/-- `combine_ttl_files` for one source, as a function of the chunk-file read
outcomes: union everything into one graph starting from `Graph()`. -/
def combine_ttl_files (files : List (PyResult RGraph)) : PyResult RGraph :=
  combineGo ∅ files

/-- Pure union of a list of graphs — the triple-set content of both
`combine_ttl_files` (all reads succeeding) and
`OntologyCreator.populate_ontology`'s union of per-source files. -/
def mergeGraphs (gs : List RGraph) : RGraph := gs.foldl (· ∪ ·) ∅

/-! ## The driver (`main`) -/

/-- Everything `main` consumes for one source: its mapping, the date column
read by `extract_earliest_year`, the chunked rows read by
`load_and_transform_data`, and the chunk-file read outcomes seen by
`combine_ttl_files`. -/
structure SourceRun where
  mapping : Option SourceMapping
  dateCells : List String
  chunks : List Chunk
  readback : List (PyResult RGraph)

/-- `extract_earliest_year(source_name)`: the `mappings[source_name]` lookup
happens inside the `try`, so a missing mapping (`KeyError`) also yields
`None`. -/
def extract_earliest_year_run (r : SourceRun) : Option Int :=
  match r.mapping with
  | none => none
  | some m => extract_earliest_year r.dateCells m.date_format

/-- `find_common_earliest_year(source_names)`: maximum of the per-source
earliest years, ignoring sources that yielded `None`; `None` when every
source did. -/
def find_common_earliest_year (runs : List SourceRun) : Option Int :=
  listMax? (runs.filterMap extract_earliest_year_run)

/-- The body of `main`'s per-source loop: transform, then merge.  An
exception from either step propagates — there is no handler in `main`. -/
def processSource (vls : List String) (fresh : Nat → Nat → String) (cey : Int)
    (name : String) (r : SourceRun) : PyResult Summary :=
  match load_and_transform_data name r.mapping vls r.chunks cey fresh with
  | .error e => .error e
  | .ok (sum, _) =>
    match combine_ttl_files r.readback with
    | .error e => .error e
    | .ok _ => .ok sum

/-- `main`'s loop over the sources, in order; a raised exception aborts the
loop, leaving the remaining sources unprocessed. -/
def main_loop (vls : List String) (fresh : Nat → Nat → String) (cey : Int) :
    List SourceRun → PyResult (List Summary)
  | [] => .ok []
  | r :: rest =>
    match processSource vls fresh cey "src" r with
    | .error e => .error e
    | .ok sum =>
      match main_loop vls fresh cey rest with
      | .error e => .error e
      | .ok sums => .ok (sum :: sums)

/-- `main()`: compute the watermark first; when it is `None`, print and
return before any row-level transformation (result `none`); otherwise run
the per-source loop. -/
def main_run (vls : List String) (fresh : Nat → Nat → String) (runs : List SourceRun) :
    Option (PyResult (List Summary)) :=
  match find_common_earliest_year runs with
  | none => none
  | some y => some (main_loop vls fresh y runs)

/-! ## Spec-side formulations

These definitions follow the words of the specification (not the code) and
exist only to be compared with the code-derived definitions above. -/

/-- Spec wording of URI sanitisation: "replace every character outside
[alphanumeric, dash, underscore] with underscore; if the result starts with
a digit, prefix an underscore". -/
def sanitizeSpec (s : String) : String :=
  let t := String.mk (s.data.map (fun c => if c.isAlphanum || c = '-' || c = '_' then c else '_'))
  match t.data with
  | [] => t
  | c :: _ => if c.isDigit then "_" ++ t else t

/-- Claim C8's match relation: "the entry's text contained in, or containing,
the candidate", case-insensitively. -/
def claimMatch (v cand : String) : Bool :=
  pyInStr (lowerStr v) (lowerStr cand) || pyInStr (lowerStr cand) (lowerStr v)

/-- Claim C8's reading of `validate_location`: first entry matching in either
containment direction. -/
def validateClaim (vls : List String) (nm : String) : Option String :=
  vls.find? (fun v => claimMatch v nm)

/-- Claim C2's reading of a source's earliest year: the minimum
successfully-normalised year, ignoring every per-row parse failure
(including rows whose parse raises). -/
def extract_claim (cells : List String) (fmts : List DateFormat) : Option Int :=
  listMin? (cells.filterMap (fun c =>
    match rowYear fmts c with
    | .ok (some y) => some y
    | _ => none))

/-- The rows of a chunk that survive the location pass (those whose cleaned
location name validates); used to state which rows are counted in
`total_rows`. -/
def survivorCount (hasLoc : Bool) (vls : List String) (c : Chunk) : Nat :=
  if hasLoc then
    (c.filterMap (fun r =>
      match r.lookup "location_name" with
      | some (some nm) => validate_location vls (clean_location_name nm)
      | _ => none)).length
  else c.length

/-! ## Fixtures for instantiating theorems -/

/-- A minimal mapping with no fields and a synthetic URI pattern. -/
def specimenMapping : SourceMapping := ⟨"C", .uniqueId "E/" "", [.YYYY], []⟩

/-- A plain date-field rule (no value map, no valid-values set). -/
def specimenDateRule : FieldRule :=
  ⟨timeNS ++ "date", some (xsdNS ++ "gYear"), none, none, false, none⟩

/-- A mapping whose only field is the date field. -/
def specimenDateMapping : SourceMapping :=
  ⟨"C", .uniqueId "E/" "", [.YYYY], [("date", specimenDateRule)]⟩

/-- A source run with the `'%Y'` format and a given date column, used for
watermark examples. -/
def yearRun (cells : List String) : SourceRun := ⟨some specimenMapping, cells, [], []⟩

/-- A mapping that declares a `location_name` field (as a plain literal
field, as the `additional_dwellings` and `school_count` mappings do). -/
def locMapping : SourceMapping :=
  ⟨"C", .uniqueId "E/" "", [.YYYY],
   [("location_name",
     ⟨"http://example.org/property#hasLocation", some xsdString, none, none, false, none⟩)]⟩

/-- One chunk of two rows: a location that cleans and validates, and one
that fails validation. -/
def locChunks : List Chunk :=
  [[[("location_name", some "Leeds ua")], [("location_name", some "Nowhere")]]]

/-! ## Helper lemmas -/

theorem foldl_union_perm {l1 l2 : List RGraph} (h : l1.Perm l2) :
    ∀ a : RGraph, l1.foldl (· ∪ ·) a = l2.foldl (· ∪ ·) a := by
  induction h with
  | nil => intro a; rfl
  | cons x _ ih => intro a; simpa using ih (a ∪ x)
  | swap x y l => intro a; simp only [List.foldl]; rw [Finset.union_right_comm]
  | trans _ _ ih1 ih2 => intro a; rw [ih1, ih2]

theorem combineGo_ok (gs : List RGraph) :
    ∀ acc : RGraph, combineGo acc (gs.map Except.ok) = .ok (gs.foldl (· ∪ ·) acc) := by
  induction gs with
  | nil => intro acc; rfl
  | cons g gs ih => intro acc; simpa [combineGo] using ih (acc ∪ g)

theorem combineGo_error (gs : List RGraph) (e : PyError) (rest : List (PyResult RGraph)) :
    ∀ acc : RGraph, combineGo acc (gs.map Except.ok ++ Except.error e :: rest) = .error e := by
  induction gs with
  | nil => intro acc; rfl
  | cons g gs ih => intro acc; simpa [combineGo] using ih (acc ∪ g)

theorem collectRows_filterMap (fmts : List DateFormat) (cells : List String) :
    ∀ ys, collectRows fmts cells = .ok ys →
      ys.filterMap id = cells.filterMap (fun c =>
        match rowYear fmts c with
        | .ok (some y) => some y
        | _ => none) := by
  induction cells with
  | nil => intro ys h; cases h; rfl
  | cons c cs ih =>
    intro ys h
    unfold collectRows at h
    cases hr : rowYear fmts c with
    | error e => rw [hr] at h; cases h
    | ok y =>
      rw [hr] at h
      cases hc : collectRows fmts cs with
      | error e => rw [hc] at h; cases h
      | ok ys2 =>
        rw [hc] at h
        cases h
        cases y <;> simp [List.filterMap_cons, hr, ih ys2 hc]

theorem listMin?_eq_none_iff (l : List Int) : listMin? l = none ↔ l = [] := by
  cases l <;> simp [listMin?]

theorem listMin?_mem (l : List Int) : ∀ m, listMin? l = some m → m ∈ l := by
  induction l with
  | nil => intro m h; cases h
  | cons x xs ih =>
    intro m h
    unfold listMin? at h
    cases hx : listMin? xs with
    | none =>
      rw [hx] at h
      cases h
      simp
    | some m2 =>
      rw [hx] at h
      cases h
      show min x m2 ∈ x :: xs
      rcases le_total x m2 with hle | hle
      · rw [min_eq_left hle]; simp
      · rw [min_eq_right hle]
        exact List.mem_cons_of_mem _ (ih m2 hx)

theorem listMin?_le (l : List Int) : ∀ m, listMin? l = some m → ∀ x ∈ l, m ≤ x := by
  induction l with
  | nil => intro m h; cases h
  | cons a xs ih =>
    intro m h x hx
    unfold listMin? at h
    cases ha : listMin? xs with
    | none =>
      rw [ha] at h
      cases h
      have hxs : xs = [] := (listMin?_eq_none_iff xs).mp ha
      subst hxs
      have hxa : x = a := by simpa using hx
      subst hxa
      exact le_refl x
    | some m2 =>
      rw [ha] at h
      cases h
      show min a m2 ≤ x
      rcases List.mem_cons.mp hx with rfl | hx2
      · exact min_le_left _ _
      · exact le_trans (min_le_right _ _) (ih m2 ha x hx2)

theorem listMax?_eq_none_iff (l : List Int) : listMax? l = none ↔ l = [] := by
  cases l <;> simp [listMax?]

theorem listMax?_mem (l : List Int) : ∀ m, listMax? l = some m → m ∈ l := by
  induction l with
  | nil => intro m h; cases h
  | cons x xs ih =>
    intro m h
    unfold listMax? at h
    cases hx : listMax? xs with
    | none =>
      rw [hx] at h
      cases h
      simp
    | some m2 =>
      rw [hx] at h
      cases h
      show max x m2 ∈ x :: xs
      rcases le_total x m2 with hle | hle
      · rw [max_eq_right hle]
        exact List.mem_cons_of_mem _ (ih m2 hx)
      · rw [max_eq_left hle]; simp

theorem listMax?_ge (l : List Int) : ∀ m, listMax? l = some m → ∀ x ∈ l, x ≤ m := by
  induction l with
  | nil => intro m h; cases h
  | cons a xs ih =>
    intro m h x hx
    unfold listMax? at h
    cases ha : listMax? xs with
    | none =>
      rw [ha] at h
      cases h
      have hxs : xs = [] := (listMax?_eq_none_iff xs).mp ha
      subst hxs
      have hxa : x = a := by simpa using hx
      subst hxa
      exact le_refl x
    | some m2 =>
      rw [ha] at h
      cases h
      show x ≤ max a m2
      rcases List.mem_cons.mp hx with rfl | hx2
      · exact le_max_left _ _
      · exact le_trans (ih m2 ha x hx2) (le_max_right _ _)

theorem map_date_graph_mono {t : Triple} {d : String} {g : RGraph} {cey : Int}
    (h : t ∈ g) : t ∈ (map_date_to_ontology d g cey).1 := by
  unfold map_date_to_ontology
  repeat' split
  all_goals simp_all [Finset.mem_insert_of_mem]

theorem dateStep_graph_mono {t : Triple} {cey : Int} {entity : String}
    {dfmts : List DateFormat} {prop value : String} {g : RGraph} {s : Summary}
    (h : t ∈ g) : t ∈ (dateStep cey entity dfmts prop value g s).graph := by
  unfold dateStep
  split
  · exact h
  · exact h
  · next x pd hpd =>
    split
    · exact h
    · next x2 yr hyr =>
      split
      · split
        · next x3 g2 du heq =>
          have hm : t ∈ (map_date_to_ontology pd g cey).1 := map_date_graph_mono h
          rw [heq] at hm
          exact Finset.mem_insert_of_mem hm
        · next x3 g2 heq =>
          have hm : t ∈ (map_date_to_ontology pd g cey).1 := map_date_graph_mono h
          rw [heq] at hm
          exact hm
      · exact h

theorem fieldStep_graph_mono {t : Triple} {cey : Int} {entity : String}
    {dfmts : List DateFormat} {row : Row} {fr : String × FieldRule} {g : RGraph}
    {s : Summary} (h : t ∈ g) : t ∈ (fieldStep cey entity dfmts row fr g s).graph := by
  unfold fieldStep objStep
  repeat' split
  all_goals first
    | exact dateStep_graph_mono h
    | simp_all [RowStep.graph, Finset.mem_insert_of_mem]

theorem processFields_graph_mono {t : Triple} {cey : Int} {entity : String}
    {dfmts : List DateFormat} {row : Row} (fields : List (String × FieldRule)) :
    ∀ {g : RGraph} {s : Summary}, t ∈ g →
      t ∈ (processFields cey entity dfmts row fields g s).graph := by
  induction fields with
  | nil => intro g s h; exact h
  | cons fr rest ih =>
    intro g s h
    unfold processFields
    cases hs : fieldStep cey entity dfmts row fr g s with
    | cont g2 s2 =>
      have h2 : t ∈ (fieldStep cey entity dfmts row fr g s).graph := fieldStep_graph_mono h
      rw [hs] at h2
      exact ih h2
    | stop g2 s2 =>
      have h2 : t ∈ (fieldStep cey entity dfmts row fr g s).graph := fieldStep_graph_mono h
      rw [hs] at h2
      exact h2
    | exn e g2 s2 =>
      have h2 : t ∈ (fieldStep cey entity dfmts row fr g s).graph := fieldStep_graph_mono h
      rw [hs] at h2
      exact h2

theorem dateStep_counts {cey : Int} {entity : String} {dfmts : List DateFormat}
    {prop value : String} {g : RGraph} {s : Summary} :
    ((dateStep cey entity dfmts prop value g s).summary.total_rows = s.total_rows ∧
     (dateStep cey entity dfmts prop value g s).summary.mapped_rows = s.mapped_rows) ∧
    (dateStep cey entity dfmts prop value g s).summary.invalid_locations =
      s.invalid_locations := by
  unfold dateStep
  repeat' split
  all_goals simp_all [RowStep.summary, addSkip]

theorem fieldStep_counts {cey : Int} {entity : String} {dfmts : List DateFormat}
    {row : Row} {fr : String × FieldRule} {g : RGraph} {s : Summary} :
    ((fieldStep cey entity dfmts row fr g s).summary.total_rows = s.total_rows ∧
     (fieldStep cey entity dfmts row fr g s).summary.mapped_rows = s.mapped_rows) ∧
    (fieldStep cey entity dfmts row fr g s).summary.invalid_locations =
      s.invalid_locations := by
  unfold fieldStep objStep
  repeat' split
  all_goals first
    | exact dateStep_counts
    | simp_all [RowStep.summary]

theorem fieldStep_skipped {cey : Int} {entity : String} {dfmts : List DateFormat}
    {row : Row} {fr : String × FieldRule} {g : RGraph} {s : Summary}
    (h : fr.1 ≠ "date") :
    (fieldStep cey entity dfmts row fr g s).summary.skipped_dates = s.skipped_dates := by
  unfold fieldStep objStep
  repeat' split
  all_goals simp_all [RowStep.summary]

theorem processFields_counts {cey : Int} {entity : String} {dfmts : List DateFormat}
    {row : Row} (fields : List (String × FieldRule)) :
    ∀ {g : RGraph} {s : Summary},
      ((processFields cey entity dfmts row fields g s).summary.total_rows = s.total_rows ∧
       (processFields cey entity dfmts row fields g s).summary.mapped_rows = s.mapped_rows) ∧
      (processFields cey entity dfmts row fields g s).summary.invalid_locations =
        s.invalid_locations := by
  induction fields with
  | nil => intro g s; exact ⟨⟨rfl, rfl⟩, rfl⟩
  | cons fr rest ih =>
    intro g s
    unfold processFields
    cases hs : fieldStep cey entity dfmts row fr g s with
    | cont g2 s2 =>
      have h2 := @fieldStep_counts cey entity dfmts row fr g s
      rw [hs] at h2
      simp only [RowStep.summary] at h2
      obtain ⟨⟨ht, hm⟩, hi⟩ := @ih g2 s2
      exact ⟨⟨by rw [ht, h2.1.1], by rw [hm, h2.1.2]⟩, by rw [hi, h2.2]⟩
    | stop g2 s2 =>
      have h2 := @fieldStep_counts cey entity dfmts row fr g s
      rw [hs] at h2
      simpa [RowStep.summary] using h2
    | exn e g2 s2 =>
      have h2 := @fieldStep_counts cey entity dfmts row fr g s
      rw [hs] at h2
      simpa [RowStep.summary] using h2

theorem processFields_skipped {cey : Int} {entity : String} {dfmts : List DateFormat}
    {row : Row} (fields : List (String × FieldRule)) (hnd : ∀ p ∈ fields, p.1 ≠ "date") :
    ∀ {g : RGraph} {s : Summary},
      (processFields cey entity dfmts row fields g s).summary.skipped_dates =
        s.skipped_dates := by
  induction fields with
  | nil => intro g s; rfl
  | cons fr rest ih =>
    intro g s
    have hfr : fr.1 ≠ "date" := hnd fr (by simp)
    have hrest : ∀ p ∈ rest, p.1 ≠ "date" := fun p hp => hnd p (by simp [hp])
    unfold processFields
    cases hs : fieldStep cey entity dfmts row fr g s with
    | cont g2 s2 =>
      have h2 := @fieldStep_skipped cey entity dfmts row fr g s hfr
      rw [hs] at h2
      simp only [RowStep.summary] at h2
      rw [ih hrest, h2]
    | stop g2 s2 =>
      have h2 := @fieldStep_skipped cey entity dfmts row fr g s hfr
      rw [hs] at h2
      simpa [RowStep.summary] using h2
    | exn e g2 s2 =>
      have h2 := @fieldStep_skipped cey entity dfmts row fr g s hfr
      rw [hs] at h2
      simpa [RowStep.summary] using h2

theorem transform_counts (row : Row) (m : SourceMapping) (g : RGraph) (cey : Int)
    (s : Summary) (fresh : String) :
    ((transform_row_to_rdf row m g cey s fresh).2.2.total_rows = s.total_rows ∧
     (transform_row_to_rdf row m g cey s fresh).2.2.mapped_rows = s.mapped_rows) ∧
    (transform_row_to_rdf row m g cey s fresh).2.2.invalid_locations =
      s.invalid_locations := by
  unfold transform_row_to_rdf
  split
  · exact ⟨⟨rfl, rfl⟩, rfl⟩
  · next entity heq =>
    have h2 := @processFields_counts cey entity m.date_format row m.fields
      (insert (entity, rdfType, Node.uri m.cls) g) s
    cases hs : processFields cey entity m.date_format row m.fields
        (insert (entity, rdfType, Node.uri m.cls) g) s with
    | cont g2 s2 => rw [hs] at h2; simpa [RowStep.summary] using h2
    | stop g2 s2 => rw [hs] at h2; simpa [RowStep.summary] using h2
    | exn e g2 s2 => rw [hs] at h2; simpa [RowStep.summary] using h2

theorem run_rows_counts (m : SourceMapping) (cey : Int) (fresh : Nat → String)
    (rows : List Row) :
    ∀ (g : RGraph) (s : Summary) (j : Nat),
      (run_rows m cey fresh rows g s j).2.total_rows = s.total_rows + rows.length ∧
      (run_rows m cey fresh rows g s j).2.invalid_locations = s.invalid_locations := by
  induction rows with
  | nil => intro g s j; exact ⟨rfl, rfl⟩
  | cons r rest ih =>
    intro g s j
    unfold run_rows
    have h2 := transform_counts r m g cey { s with total_rows := s.total_rows + 1 } (fresh j)
    cases hs : transform_row_to_rdf r m g cey { s with total_rows := s.total_rows + 1 }
        (fresh j) with
    | mk b p =>
      cases p with
      | mk g2 s2 =>
        rw [hs] at h2
        have ht : s2.total_rows = s.total_rows + 1 := h2.1.1
        have hi : s2.invalid_locations = s.invalid_locations := h2.2
        cases b with
        | true =>
          obtain ⟨ht2, hi2⟩ := ih g2 { s2 with mapped_rows := s2.mapped_rows + 1 } (j + 1)
          have ht3 : (run_rows m cey fresh rest g2
              { s2 with mapped_rows := s2.mapped_rows + 1 } (j + 1)).2.total_rows =
              s2.total_rows + rest.length := ht2
          have hi3 : (run_rows m cey fresh rest g2
              { s2 with mapped_rows := s2.mapped_rows + 1 } (j + 1)).2.invalid_locations =
              s2.invalid_locations := hi2
          refine ⟨?_, ?_⟩
          · show (run_rows m cey fresh rest g2
              { s2 with mapped_rows := s2.mapped_rows + 1 } (j + 1)).2.total_rows = _
            rw [ht3, ht]
            simp only [List.length_cons]
            omega
          · show (run_rows m cey fresh rest g2
              { s2 with mapped_rows := s2.mapped_rows + 1 } (j + 1)).2.invalid_locations = _
            rw [hi3, hi]
        | false =>
          obtain ⟨ht2, hi2⟩ := ih g2 s2 (j + 1)
          refine ⟨?_, ?_⟩
          · show (run_rows m cey fresh rest g2 s2 (j + 1)).2.total_rows = _
            rw [ht2, ht]
            simp only [List.length_cons]
            omega
          · show (run_rows m cey fresh rest g2 s2 (j + 1)).2.invalid_locations = _
            rw [hi2, hi]

theorem locate_rows_length (vls : List String) (c : List Row) :
    ∀ rows, locate_rows vls c = .ok rows →
      rows.length = (c.filterMap (fun r =>
        match r.lookup "location_name" with
        | some (some nm) => validate_location vls (clean_location_name nm)
        | _ => none)).length := by
  induction c with
  | nil => intro rows h; cases h; rfl
  | cons r rest ih =>
    intro rows h
    cases hl : r.lookup "location_name" with
    | none => simp [locate_rows, hl] at h
    | some cell =>
      cases cell with
      | none => simp [locate_rows, hl] at h
      | some nm =>
        cases hrest : locate_rows vls rest with
        | error e => simp [locate_rows, hl, hrest] at h
        | ok rest2 =>
          cases hv : validate_location vls (clean_location_name nm) with
          | none =>
            simp [locate_rows, hl, hrest, hv] at h
            subst h
            simpa [List.filterMap_cons, hl, hv] using ih rest2 hrest
          | some canon =>
            simp [locate_rows, hl, hrest, hv] at h
            subst h
            simpa [List.filterMap_cons, hl, hv] using ih rest2 hrest

theorem run_chunks_summary (m : SourceMapping) (hasLoc : Bool) (vls : List String)
    (cey : Int) (fresh : Nat → Nat → String) (chunks : List Chunk) :
    ∀ (i : Nat) (s : Summary) res,
      run_chunks m hasLoc vls cey fresh chunks i s = .ok res →
      res.1.invalid_locations = s.invalid_locations ∧
      res.1.total_rows = s.total_rows + (chunks.map (survivorCount hasLoc vls)).sum := by
  induction chunks with
  | nil => intro i s res h; cases h; simp
  | cons c rest ih =>
    intro i s res h
    unfold run_chunks at h
    by_cases hempty : c.isEmpty = true
    · rw [if_pos hempty] at h
      obtain ⟨hi, ht⟩ := ih (i + 1) s res h
      have hc : survivorCount hasLoc vls c = 0 := by
        rw [List.isEmpty_iff] at hempty
        subst hempty
        unfold survivorCount
        split <;> simp
      exact ⟨hi, by rw [ht]; simp [hc]⟩
    · rw [if_neg hempty] at h
      cases hasLoc with
      | false =>
        simp only [Bool.false_eq_true, if_false, Bool.false_and] at h
        cases hrr : run_rows m cey (fresh i) c ∅ s 0 with
        | mk g2 s2 =>
          rw [hrr] at h
          cases hrc : run_chunks m false vls cey fresh rest (i + 1) s2 with
          | error e => rw [hrc] at h; cases h
          | ok p =>
            rw [hrc] at h
            cases p with
            | mk sf outs =>
              cases h
              obtain ⟨hi2, ht2⟩ := ih (i + 1) s2 (sf, outs) hrc
              have hr := run_rows_counts m cey (fresh i) c ∅ s 0
              rw [hrr] at hr
              have hr1 : s2.total_rows = s.total_rows + c.length := hr.1
              have hr2 : s2.invalid_locations = s.invalid_locations := hr.2
              refine ⟨by rw [hi2, hr2], ?_⟩
              rw [ht2, hr1]
              have hsc : survivorCount false vls c = c.length := rfl
              simp [hsc]
              omega
      | true =>
        simp only [if_true, Bool.true_and] at h
        split at h
        next e heq => exact Except.noConfusion h
        next rows heq =>
          have hlen : rows.length = survivorCount true vls c := by
            rw [locate_rows_length vls c rows heq]
            rfl
          split at h
          next hre =>
            obtain ⟨hi, ht⟩ := ih (i + 1) s res h
            have h0 : survivorCount true vls c = 0 := by
              rw [← hlen]
              simp [List.isEmpty_iff.mp hre]
            exact ⟨hi, by rw [ht]; simp [h0]⟩
          next hre =>
            split at h
            next e heq2 => exact Except.noConfusion h
            next sf outs heq2 =>
              cases h
              obtain ⟨hi2, ht2⟩ :=
                ih (i + 1) ((run_rows m cey (fresh i) rows ∅ s 0).2) (sf, outs) heq2
              have hr := run_rows_counts m cey (fresh i) rows ∅ s 0
              have hr1 : (run_rows m cey (fresh i) rows ∅ s 0).2.total_rows =
                  s.total_rows + rows.length := hr.1
              have hr2 : (run_rows m cey (fresh i) rows ∅ s 0).2.invalid_locations =
                  s.invalid_locations := hr.2
              refine ⟨by rw [hi2, hr2], ?_⟩
              rw [ht2, hr1, hlen]
              simp
              omega

theorem sanitize_chars_eq :
    (fun c : Char => if (c.isAlphanum || c = '_') || c = '-' then c else '_')
      = (fun c : Char => if c.isAlphanum || c = '-' || c = '_' then c else '_') := by
  funext c
  by_cases h1 : c = '_' <;> by_cases h2 : c = '-' <;> simp [h1, h2]

theorem sanitize_uri_eq_spec (s : String) (hs : s ≠ "") :
    sanitize_uri s = .ok (sanitizeSpec s) := by
  obtain ⟨l⟩ := s
  cases l with
  | nil => exact absurd rfl hs
  | cons a t =>
    unfold sanitize_uri sanitizeSpec sanitize_sub
    rw [sanitize_chars_eq]
    rfl

theorem string_mk_cons_ne (a : Char) (l : List Char) : String.mk (a :: l) ≠ "" := by
  intro h
  have h2 : (String.mk (a :: l)).data = ("" : String).data := by rw [h]
  simp at h2

theorem sanitizeSpec_ne_empty (s : String) (hs : s ≠ "") : sanitizeSpec s ≠ "" := by
  obtain ⟨l⟩ := s
  cases l with
  | nil => exact absurd rfl hs
  | cons a t =>
    show (if ((fun c : Char => if c.isAlphanum || c = '-' || c = '_' then c else '_') a).isDigit
        then "_" ++ String.mk ((a :: t).map
          (fun c : Char => if c.isAlphanum || c = '-' || c = '_' then c else '_'))
        else String.mk ((a :: t).map
          (fun c : Char => if c.isAlphanum || c = '-' || c = '_' then c else '_'))) ≠ ""
    split
    · exact string_mk_cons_ne '_' _
    · exact string_mk_cons_ne _ _

/-! ## Claim theorems -/

/-- C7: `sanitize_uri` replaces each character outside [alphanumeric, dash,
underscore] with an underscore one-for-one (the substitution pass preserves
length and agrees character-wise with the spec rule, captured by agreement
with the spec-side `sanitizeSpec` on every non-empty input, including the
leading-digit escape), and `sanitize_uri "3 Main St!" = "_3_Main_St_"`. -/
theorem c7_sanitize_uri :
    (∀ s : String, s ≠ "" → sanitize_uri s = .ok (sanitizeSpec s)) ∧
    (∀ s : String, (sanitize_sub s).length = s.length) ∧
    sanitize_uri "3 Main St!" = .ok "_3_Main_St_" := by
  refine ⟨sanitize_uri_eq_spec, ?_, by rfl⟩
  intro s
  have h : (sanitize_sub s).data.length = s.data.length := by
    unfold sanitize_sub
    exact List.length_map _ _
  exact h

/-- C7 witness: the universally quantified part of `c7_sanitize_uri`
instantiated at the non-empty input `"3 Main St!"`. -/
theorem c7_sanitize_uri_witness :
    sanitize_uri "3 Main St!" = .ok (sanitizeSpec "3 Main St!") :=
  c7_sanitize_uri.1 "3 Main St!" (by decide)

/-- C10: `sanitize_uri` raises `IndexError` on the empty string (indexing the
first character of the substitution result), and returns a non-empty string
for every non-empty input. -/
theorem c10_sanitize_empty :
    sanitize_uri "" = .error (.indexError "string index out of range") ∧
    ∀ s : String, s ≠ "" → ∃ t, sanitize_uri s = .ok t ∧ t ≠ "" := by
  refine ⟨by rfl, ?_⟩
  intro s hs
  exact ⟨sanitizeSpec s, sanitize_uri_eq_spec s hs, sanitizeSpec_ne_empty s hs⟩

/-- C10 witness: instantiated at the non-empty input `"a"`. -/
theorem c10_sanitize_empty_witness :
    ∃ t, sanitize_uri "a" = .ok t ∧ t ≠ "" :=
  c10_sanitize_empty.2 "a" (by decide)

/-- C8 counterexample: the claim says an entry matches when its text is
contained in, *or contains*, the candidate.  With reference list `["ab"]`
and candidate `"a"`, the entry contains the candidate, so the claim predicts
`some "ab"` (as `validateClaim` computes); `validate_location` tests only
"entry contained in candidate" and returns `none`. -/
theorem c8_counterexample :
    validate_location ["ab"] "a" = none ∧ validateClaim ["ab"] "a" = some "ab" := by
  constructor <;> rfl

/-- C8 amended: `clean_location_name` removes a trailing `" ua"` exactly when
present (case-sensitively) and otherwise returns the name unchanged;
`validate_location` returns the first reference entry whose lowercased text
is contained in the lowercased candidate (one direction only: an entry that
merely contains the candidate does not match), and `none` when no entry is
so contained. -/
theorem c8_location_amended :
    (∀ s : String, clean_location_name (s ++ " ua") = s) ∧
    (∀ nm : String, pyEndsWith nm " ua" = false → clean_location_name nm = nm) ∧
    (∀ vls nm, validate_location vls nm = none ↔
      ∀ v ∈ vls, ¬ pyInStr (lowerStr v) (lowerStr nm) = true) ∧
    (∀ vls nm v, validate_location vls nm = some v →
      v ∈ vls ∧ pyInStr (lowerStr v) (lowerStr nm) = true) ∧
    (∀ v1 vls nm, pyInStr (lowerStr v1) (lowerStr nm) = true →
      validate_location (v1 :: vls) nm = some v1) := by
  refine ⟨?_, ?_, ?_, ?_, ?_⟩
  · intro s
    unfold clean_location_name
    have he : pyEndsWith (s ++ " ua") " ua" = true := by
      unfold pyEndsWith isSuffixB
      rw [String.data_append]
      show isPrefixB ((" ua" : String).data.reverse) ((s.data ++ (" ua" : String).data).reverse)
        = true
      rw [List.reverse_append]
      rfl
    rw [if_pos he]
    have hl : (s ++ " ua").data = s.data ++ (" ua" : String).data := String.data_append _ _
    rw [hl]
    have hlen : (s.data ++ (" ua" : String).data).length - 3 = s.data.length := by
      rw [List.length_append]
      rfl
    rw [hlen]
    have : (s.data ++ (" ua" : String).data).take s.data.length = s.data :=
      List.take_left _ _
    rw [this]
  · intro nm h
    unfold clean_location_name
    rw [if_neg (by simp [h])]
  · intro vls nm
    unfold validate_location
    exact List.find?_eq_none
  · intro vls nm v h
    unfold validate_location at h
    have h2 := List.find?_some h
    exact ⟨List.mem_of_find?_eq_some h, by simpa using h2⟩
  · intro v1 vls nm h
    unfold validate_location
    simp [List.find?, h]

/-- C8 witness: the amended theorem's conditional parts instantiated —
`"Leeds ua"` cleans to `"Leeds"`, a name not ending in `" ua"` is unchanged,
and `"leeds"` is found inside `"city of leeds"`. -/
theorem c8_location_amended_witness :
    clean_location_name ("Leeds" ++ " ua") = "Leeds" ∧
    clean_location_name "York" = "York" ∧
    validate_location ["Leeds"] "City of Leeds" = some "Leeds" :=
  ⟨c8_location_amended.1 "Leeds",
   c8_location_amended.2.1 "York" (by decide),
   c8_location_amended.2.2.2.2 "Leeds" [] "City of Leeds" (by decide)⟩

/-- C4: the quarter branch of `parse_date`.  A two-token input whose second
token (upper-cased) is a key of the quarter dictionary parses to
`year ++ "-" ++ quarterStartMonth` (case-insensitively, as the concrete
`Q1`/`q2`/`Q3`/`q4` instances show); but an unrecognised quarter token makes
the dictionary lookup raise `KeyError`, which the `except ValueError` clause
does not catch — `parse_date` raises instead of returning `None`, as
`"2019 Q5"` shows.  (The claim says it returns `None`; the code slip is the
uncaught `KeyError`.) -/
theorem c4_quarter :
    (∀ ds ytok qtok mo, pySplitWs (pyStrip ds) = [ytok, qtok] →
      quarterMonth (upperStr qtok) = some mo →
      parse_date (some ds) [.YYYY_Q] = .ok (some (ytok ++ "-" ++ mo))) ∧
    (∀ ds ytok qtok, pySplitWs (pyStrip ds) = [ytok, qtok] →
      quarterMonth (upperStr qtok) = none →
      parse_date (some ds) [.YYYY_Q] = .error (.keyError (upperStr qtok))) ∧
    parse_date (some "2019 Q1") [.YYYY_Q] = .ok (some "2019-01") ∧
    parse_date (some "2019 q2") [.YYYY_Q] = .ok (some "2019-04") ∧
    parse_date (some "2019 Q3") [.YYYY_Q] = .ok (some "2019-07") ∧
    parse_date (some "2019 q4") [.YYYY_Q] = .ok (some "2019-10") ∧
    parse_date (some "2019 Q5") [.YYYY_Q] = .error (.keyError "Q5") := by
  refine ⟨?_, ?_, by rfl, by rfl, by rfl, by rfl, by rfl⟩
  · intro ds ytok qtok mo hsplit hq
    have ht : tryFormat (pyStrip ds) .YYYY_Q = .ok (ytok ++ "-" ++ mo) := by
      unfold tryFormat
      rw [hsplit]
      show (match quarterMonth (upperStr qtok) with
            | some mo => Except.ok (ytok ++ "-" ++ mo)
            | none => Except.error (PyError.keyError (upperStr qtok))) = _
      rw [hq]
    unfold parse_date parse_date_go
    rw [ht]
  · intro ds ytok qtok hsplit hq
    have ht : tryFormat (pyStrip ds) .YYYY_Q = .error (.keyError (upperStr qtok)) := by
      unfold tryFormat
      rw [hsplit]
      show (match quarterMonth (upperStr qtok) with
            | some mo => Except.ok (ytok ++ "-" ++ mo)
            | none => Except.error (PyError.keyError (upperStr qtok))) = _
      rw [hq]
    unfold parse_date parse_date_go
    rw [ht]

/-- C4 witness: the quarter rules instantiated at `" 1999 q1 "` (whitespace
stripped, case-insensitive token) and the `KeyError` rule at `"1999 q7"`. -/
theorem c4_quarter_witness :
    pySplitWs (pyStrip " 1999 q1 ") = ["1999", "q1"] ∧
    parse_date (some " 1999 q1 ") [.YYYY_Q] = .ok (some "1999-01") ∧
    parse_date (some "1999 q7") [.YYYY_Q] = .error (.keyError "Q7") :=
  ⟨by rfl,
   c4_quarter.1 " 1999 q1 " "1999" "q1" "01" (by rfl) (by rfl),
   c4_quarter.2.1 "1999 q7" "1999" "q7" (by rfl) (by rfl)⟩

/-- C6: triple-set union of chunk graphs is commutative and idempotent, the
merged result is invariant under any permutation of the chunk (or source)
list, and `combine_ttl_files` computes exactly this union when every
chunk-file read succeeds. -/
theorem c6_merge_union :
    (∀ A B : RGraph, mergeGraphs [A, B] = mergeGraphs [B, A]) ∧
    (∀ A : RGraph, mergeGraphs [A, A] = mergeGraphs [A]) ∧
    (∀ l1 l2 : List RGraph, l1.Perm l2 → mergeGraphs l1 = mergeGraphs l2) ∧
    (∀ gs : List RGraph, combine_ttl_files (gs.map Except.ok) = .ok (mergeGraphs gs)) := by
  refine ⟨?_, ?_, ?_, ?_⟩
  · intro A B
    show (∅ ∪ A) ∪ B = (∅ ∪ B) ∪ A
    rw [Finset.empty_union, Finset.empty_union, Finset.union_comm]
  · intro A
    show (∅ ∪ A) ∪ A = ∅ ∪ A
    rw [Finset.empty_union, Finset.union_self]
  · intro l1 l2 h
    exact foldl_union_perm h ∅
  · intro gs
    exact combineGo_ok gs ∅

/-- C6 witness: permutation invariance instantiated at the two-element swap
of a singleton graph and the empty graph. -/
theorem c6_merge_union_witness :
    mergeGraphs [(∅ : RGraph), {("s", "p", Node.uri "o")}]
      = mergeGraphs [{("s", "p", Node.uri "o")}, (∅ : RGraph)] :=
  c6_merge_union.2.2.1 _ _ (List.Perm.swap _ _ _)

/-- C5 counterexample: two sources; the first one's merge hits a failing
chunk-file read.  `combine_ttl_files` has no handler and neither does
`main`'s loop, so the exception propagates out of the run (`main_run`
returns the error) and the second source — whose own merge input is fine —
is never processed.  The claim's "other sources are still processed to
completion and no exception propagates past the source-level boundary" is
false at this input. -/
theorem c5_counterexample :
    main_run [] (fun _ _ => "u")
      [⟨some specimenMapping, ["2005"], [], [.error (.valueError "io")]⟩,
       ⟨some specimenMapping, ["2005"], [], [.ok ∅]⟩]
      = some (.error (.valueError "io")) ∧
    combine_ttl_files [.ok (∅ : RGraph)] = .ok ∅ := by
  constructor <;> rfl

/-- C5 amended: a chunk-file read failure aborts the affected source's
merge, but the exception then propagates: `combine_ttl_files` returns the
first read error, and `main`'s loop stops at the failing source, leaving
every later source unprocessed. -/
theorem c5_merge_amended :
    (∀ (gs : List RGraph) (e : PyError) (rest : List (PyResult RGraph)),
      combine_ttl_files (gs.map Except.ok ++ Except.error e :: rest) = .error e) ∧
    (∀ vls fresh cey r rest e, processSource vls fresh cey "src" r = .error e →
      main_loop vls fresh cey (r :: rest) = .error e) ∧
    (∀ vls fresh cey (r : SourceRun) rest sums e,
      load_and_transform_data "src" r.mapping vls r.chunks cey fresh = .ok sums →
      combine_ttl_files r.readback = .error e →
      main_loop vls fresh cey (r :: rest) = .error e) := by
  refine ⟨?_, ?_, ?_⟩
  · intro gs e rest
    exact combineGo_error gs e rest ∅
  · intro vls fresh cey r rest e h
    unfold main_loop
    rw [h]
  · intro vls fresh cey r rest sums e h1 h2
    unfold main_loop processSource
    rw [h1, h2]

/-- C5 witness: the propagation rule instantiated at a one-source run whose
single chunk-file read fails. -/
theorem c5_merge_amended_witness :
    main_loop [] (fun _ _ => "u") 2005
      [⟨some specimenMapping, ["2005"], [], [.error (.valueError "io")]⟩]
      = .error (.valueError "io") :=
  c5_merge_amended.2.1 [] (fun _ _ => "u") 2005
    ⟨some specimenMapping, ["2005"], [], [.error (.valueError "io")]⟩ []
    (.valueError "io") (by rfl)

/-- C2 counterexample: a source whose date column is `["2005", "2019 QX"]`
with formats `['%Y', 'YYYY Q']`.  The claim's reading — minimum
successfully-normalised year, ignoring per-row parse failures — gives 2005
(as `extract_claim` computes), but the `"2019 QX"` row raises `KeyError`
inside `parse_date` (the quarter-dictionary lookup, not caught by
`except ValueError`), the `except Exception` of `extract_earliest_year`
turns the *whole source* into `None`, `find_common_earliest_year` returns
`None`, and the run aborts even though one row normalised fine — so the
claim's value `some 2005` is not returned and the "aborts only when
normalisation fails for every row of every source" part fails too. -/
theorem c2_counterexample :
    extract_claim ["2005", "2019 QX"] [.YYYY, .YYYY_Q] = some 2005 ∧
    parse_date (some "2019 QX") [.YYYY, .YYYY_Q] = .error (.keyError "QX") ∧
    extract_earliest_year ["2005", "2019 QX"] [.YYYY, .YYYY_Q] = none ∧
    find_common_earliest_year
      [⟨some ⟨"C", .uniqueId "E/" "", [.YYYY, .YYYY_Q], []⟩, ["2005", "2019 QX"], [], []⟩]
      = none ∧
    main_run [] (fun _ _ => "u")
      [⟨some ⟨"C", .uniqueId "E/" "", [.YYYY, .YYYY_Q], []⟩, ["2005", "2019 QX"], [], []⟩]
      = none := by
  refine ⟨by rfl, by rfl, by rfl, by rfl, by rfl⟩

/-- C2 amended: when no row of a source raises, `extract_earliest_year` is
exactly the claim's minimum-ignoring-failures — its value is a
successfully-normalised year of the source and a lower bound on all of
them; a row that raises (e.g. an unrecognised quarter token) makes the
whole source contribute no value.  `find_common_earliest_year` returns a
value that is some source's extracted minimum and an upper bound on every
source's extracted minimum (i.e. the maximum of the per-source minima),
and returns `none` exactly when every source contributes none, in which
case `main` aborts before any row-level transformation; over the
three-source fixture with per-source minima 2005, 2010, 1995 it returns
2010. -/
theorem c2_watermark_amended :
    (∀ cells fmts ys, collectRows fmts cells = .ok ys →
      extract_earliest_year cells fmts = extract_claim cells fmts) ∧
    (∀ cells fmts ys e, collectRows fmts cells = .ok ys →
      extract_earliest_year cells fmts = some e →
      e ∈ cells.filterMap (fun c =>
        match rowYear fmts c with
        | .ok (some y) => some y
        | _ => none) ∧
      ∀ y ∈ cells.filterMap (fun c =>
        match rowYear fmts c with
        | .ok (some y2) => some y2
        | _ => none), e ≤ y) ∧
    (∀ runs w, find_common_earliest_year runs = some w →
      (∃ r ∈ runs, extract_earliest_year_run r = some w) ∧
      (∀ r ∈ runs, ∀ y, extract_earliest_year_run r = some y → y ≤ w)) ∧
    (∀ runs, find_common_earliest_year runs = none ↔
      ∀ r ∈ runs, extract_earliest_year_run r = none) ∧
    (∀ vls fresh runs, find_common_earliest_year runs = none →
      main_run vls fresh runs = none) ∧
    find_common_earliest_year
      [yearRun ["2005", "2007"], yearRun ["2012", "2010"], yearRun ["1995"]]
      = some 2010 := by
  refine ⟨?_, ?_, ?_, ?_, ?_, by rfl⟩
  · intro cells fmts ys h
    unfold extract_earliest_year extract_claim
    rw [h]
    show listMin? (ys.filterMap id) = _
    rw [collectRows_filterMap fmts cells ys h]
  · intro cells fmts ys e hc he
    have he2 : listMin? (ys.filterMap id) = some e := by
      unfold extract_earliest_year at he
      rw [hc] at he
      exact he
    rw [← collectRows_filterMap fmts cells ys hc]
    exact ⟨listMin?_mem _ e he2, listMin?_le _ e he2⟩
  · intro runs w hw
    unfold find_common_earliest_year at hw
    constructor
    · exact List.mem_filterMap.mp (listMax?_mem _ w hw)
    · intro r hr y hy
      exact listMax?_ge _ w hw y (List.mem_filterMap.mpr ⟨r, hr, hy⟩)
  · intro runs
    unfold find_common_earliest_year
    rw [listMax?_eq_none_iff]
    exact List.filterMap_eq_nil_iff
  · intro vls fresh runs h
    unfold main_run
    rw [h]

/-- C2 witness: the no-row-raises rule at a one-cell source, the
minimum-characterisation at a two-cell source (2005 is a normalised year
and a lower bound), the maximum-characterisation at the three-source
fixture (2010 is some source's minimum and an upper bound), and the abort
rule at a single all-failing source. -/
theorem c2_watermark_amended_witness :
    extract_earliest_year ["2005"] [.YYYY] = extract_claim ["2005"] [.YYYY] ∧
    ((2005 : Int) ∈ (["2005", "2007"].filterMap (fun c =>
      match rowYear [DateFormat.YYYY] c with
      | .ok (some y) => some y
      | _ => none))) ∧
    (∃ r ∈ [yearRun ["2005", "2007"], yearRun ["2012", "2010"], yearRun ["1995"]],
      extract_earliest_year_run r = some 2010) ∧
    main_run [] (fun _ _ => "u") [yearRun ["notadate"]] = none :=
  ⟨c2_watermark_amended.1 ["2005"] [.YYYY] [some 2005] (by rfl),
   (c2_watermark_amended.2.1 ["2005", "2007"] [.YYYY] [some 2005, some 2007] 2005
     (by rfl) (by rfl)).1,
   (c2_watermark_amended.2.2.1
     [yearRun ["2005", "2007"], yearRun ["2012", "2010"], yearRun ["1995"]] 2010
     (by rfl)).1,
   c2_watermark_amended.2.2.2.2.1 [] (fun _ _ => "u") [yearRun ["notadate"]] (by rfl)⟩

theorem transform_type_triple (row : Row) (m : SourceMapping) (g : RGraph) (cey : Int)
    (s : Summary) (fresh : String) (ent : String)
    (hf : formatUri m.uri_pattern row fresh m.cls = .ok ent) :
    (ent, rdfType, Node.uri m.cls) ∈ (transform_row_to_rdf row m g cey s fresh).2.1 := by
  unfold transform_row_to_rdf
  rw [hf]
  show (ent, rdfType, Node.uri m.cls) ∈
    (match processFields cey ent m.date_format row m.fields
        (insert (ent, rdfType, Node.uri m.cls) g) s with
      | RowStep.cont g2 s2 => (true, g2, s2)
      | RowStep.stop g2 s2 => (false, g2, s2)
      | RowStep.exn e g2 s2 =>
        (false, g2, { s2 with errors := s2.errors ++ [strOfErr e] })).2.1
  have hmem : (ent, rdfType, Node.uri m.cls) ∈ insert (ent, rdfType, Node.uri m.cls) g :=
    Finset.mem_insert_self _ _
  have h2 := @processFields_graph_mono (ent, rdfType, Node.uri m.cls) cey ent
    m.date_format row m.fields (insert (ent, rdfType, Node.uri m.cls) g) s hmem
  cases hp : processFields cey ent m.date_format row m.fields
      (insert (ent, rdfType, Node.uri m.cls) g) s with
  | cont g2 s2 => rw [hp] at h2; exact h2
  | stop g2 s2 => rw [hp] at h2; exact h2
  | exn e g2 s2 => rw [hp] at h2; exact h2

/-- C3 counterexample: for the natural-identifier `"3 Main St!"` and
template prefix `"P/"`, the code substitutes the raw (only brace-stripped)
value, producing `"P/3 Main St!"` — not the URI-sanitised
`"P/" ++ "_3_Main_St_"` the claim requires (the spec-side sanitisation of
`"3 Main St!"` is `"_3_Main_St_"`). -/
theorem c3_counterexample :
    formatUri (.transactionId "P/" "") [("transaction_id", some "3 Main St!")] "u" "C"
      = .ok "P/3 Main St!" ∧
    sanitizeSpec "3 Main St!" = "_3_Main_St_" ∧
    ("P/3 Main St!" : String) ≠ "P/" ++ "_3_Main_St_" ++ "" := by
  refine ⟨by rfl, by rfl, by decide⟩

/-- C3 amended: when the row carries a `transaction_id` key, the entity URI
is the URI template with the *brace-stripped* stringified identifier
substituted (no URI sanitisation on this path), and the row's `rdf:type`
triple uses exactly that URI. -/
theorem c3_natural_id_amended :
    ∀ (pre suf cls : String) (dfmts : List DateFormat)
      (fields : List (String × FieldRule)) (row : Row) (g : RGraph) (cey : Int)
      (s : Summary) (fresh : String) (cell : Option String),
      row.lookup "transaction_id" = some cell →
      formatUri (.transactionId pre suf) row fresh cls
        = .ok (pre ++ stripBraces (cellStr cell) ++ suf) ∧
      (pre ++ stripBraces (cellStr cell) ++ suf, rdfType, Node.uri cls) ∈
        (transform_row_to_rdf row ⟨cls, .transactionId pre suf, dfmts, fields⟩ g cey s
          fresh).2.1 := by
  intro pre suf cls dfmts fields row g cey s fresh cell h
  have hf : formatUri (.transactionId pre suf) row fresh cls
      = .ok (pre ++ stripBraces (cellStr cell) ++ suf) := by
    unfold formatUri
    rw [h]
  exact ⟨hf, transform_type_triple row ⟨cls, .transactionId pre suf, dfmts, fields⟩
    g cey s fresh _ hf⟩

/-- C3 witness: the amended rule instantiated at a row whose transaction id
is a braced GUID-style string starting with a digit. -/
theorem c3_natural_id_amended_witness :
    formatUri (.transactionId "P/" "") [("transaction_id", some "\x7b8C2C-5691\x7d")] "u" "C"
      = .ok "P/8C2C-5691" ∧
    ("P/8C2C-5691", rdfType, Node.uri "C") ∈
      (transform_row_to_rdf [("transaction_id", some "\x7b8C2C-5691\x7d")]
        ⟨"C", .transactionId "P/" "", [.YYYY], []⟩ ∅ 2000 emptySummary "u").2.1 :=
  c3_natural_id_amended "P/" "" "C" [.YYYY] [] [("transaction_id", some "\x7b8C2C-5691\x7d")]
    ∅ 2000 emptySummary "u" (some "\x7b8C2C-5691\x7d") (by rfl)

/-- C9: every row whose cleaned location name fails validation is dropped
before row-to-triple mapping and is never counted in `total_rows` (the
final count is exactly the per-chunk survivor totals), and
`invalid_locations` is the empty set whenever `load_and_transform_data`
returns — for every run and every source, including one with no mapping
configuration. -/
theorem c9_location_drop :
    (∀ name vls chunks cey fresh res,
      load_and_transform_data name none vls chunks cey fresh = .ok res →
      res.1.invalid_locations = ∅) ∧
    (∀ name (m : SourceMapping) vls chunks cey fresh res,
      load_and_transform_data name (some m) vls chunks cey fresh = .ok res →
      res.1.invalid_locations = ∅ ∧
      res.1.total_rows =
        (chunks.map (survivorCount (m.fields.lookup "location_name").isSome vls)).sum) := by
  constructor
  · intro name vls chunks cey fresh res h
    cases h
    rfl
  · intro name m vls chunks cey fresh res h
    have h2 : run_chunks m (m.fields.lookup "location_name").isSome vls cey fresh chunks 0
        emptySummary = .ok res := h
    obtain ⟨hi, ht⟩ :=
      run_chunks_summary m (m.fields.lookup "location_name").isSome vls cey fresh chunks 0
        emptySummary res h2
    exact ⟨by rw [hi]; rfl, by rw [ht]; simp [emptySummary]⟩

/-- C9 witness: a source with a location mapping and a two-row chunk —
`"Leeds ua"` cleans to `"Leeds"` and validates, `"Nowhere"` is silently
dropped — so exactly one row is counted, and `invalid_locations` is empty. -/
theorem c9_location_drop_witness :
    ∃ res, load_and_transform_data "src" (some locMapping) ["Leeds"] locChunks 2000
        (fun _ _ => "u") = .ok res ∧
      res.1.invalid_locations = ∅ ∧
      res.1.total_rows =
        ((locChunks.map (survivorCount (locMapping.fields.lookup "location_name").isSome
          ["Leeds"])).sum) := by
  refine ⟨_, rfl, ?_⟩
  exact (c9_location_drop.2 "src" locMapping ["Leeds"] locChunks 2000 (fun _ _ => "u")
    _ rfl)

theorem dateStep_none (cey : Int) (ent : String) (dfmts : List DateFormat)
    (prop v : String) (g : RGraph) (s : Summary)
    (hp : parse_date (some v) dfmts = .ok none) :
    dateStep cey ent dfmts prop v g s = .stop g (addSkip s v) := by
  simp only [dateStep, hp]

theorem dateStep_below (cey : Int) (ent : String) (dfmts : List DateFormat)
    (prop v : String) (g : RGraph) (s : Summary) (d : String) (yr : Int)
    (hp : parse_date (some v) dfmts = .ok (some d))
    (hy : yearOfParsed d = .ok yr) (hlt : yr < cey) :
    dateStep cey ent dfmts prop v g s = .stop g (addSkip s v) := by
  simp only [dateStep, hp, hy]
  rw [if_neg (not_le.mpr hlt)]

theorem dateStep_link (cey : Int) (ent : String) (dfmts : List DateFormat)
    (prop v : String) (g : RGraph) (s : Summary) (d : String) (yr : Int)
    (hp : parse_date (some v) dfmts = .ok (some d))
    (hy : yearOfParsed d = .ok yr) (hge : cey ≤ yr) (du : String)
    (hdu : (map_date_to_ontology d g cey).2 = some du) :
    dateStep cey ent dfmts prop v g s =
      .cont (insert (ent, prop, Node.uri du) (map_date_to_ontology d g cey).1) s := by
  simp only [dateStep, hp, hy]
  rw [if_pos hge]
  cases hm : map_date_to_ontology d g cey with
  | mk g2 o =>
    rw [hm] at hdu
    have ho : o = some du := hdu
    subst ho
    rfl

theorem dateStep_nolink (cey : Int) (ent : String) (dfmts : List DateFormat)
    (prop v : String) (g : RGraph) (s : Summary) (d : String) (yr : Int)
    (hp : parse_date (some v) dfmts = .ok (some d))
    (hy : yearOfParsed d = .ok yr) (hge : cey ≤ yr)
    (hdu : (map_date_to_ontology d g cey).2 = none) :
    dateStep cey ent dfmts prop v g s =
      .stop (map_date_to_ontology d g cey).1 (addSkip s v) := by
  simp only [dateStep, hp, hy]
  rw [if_pos hge]
  cases hm : map_date_to_ontology d g cey with
  | mk g2 o =>
    rw [hm] at hdu
    have ho : o = none := hdu
    subst ho
    rfl

theorem fieldStep_date (cey : Int) (ent : String) (dfmts : List DateFormat) (row : Row)
    (r : FieldRule) (g : RGraph) (s : Summary) (v : String)
    (hl : row.lookup "date" = some (some v)) (hvv : r.valid_values = none)
    (hvm : r.valueMapping = none) :
    fieldStep cey ent dfmts row ("date", r) g s = dateStep cey ent dfmts r.property v g s := by
  simp [fieldStep, hl, hvv, hvm]

theorem processFields_skip_absent (cey : Int) (ent : String) (dfmts : List DateFormat)
    (row : Row) (pre : List (String × FieldRule))
    (hab : ∀ p ∈ pre, row.lookup p.1 = none ∨ row.lookup p.1 = some none) :
    ∀ l g s, processFields cey ent dfmts row (pre ++ l) g s =
      processFields cey ent dfmts row l g s := by
  induction pre with
  | nil => intro l g s; rfl
  | cons p pre ih =>
    intro l g s
    have hstep : fieldStep cey ent dfmts row p g s = .cont g s := by
      rcases hab p (by simp) with h | h <;> simp [fieldStep, h]
    show (match fieldStep cey ent dfmts row p g s with
      | RowStep.cont g2 s2 => processFields cey ent dfmts row (pre ++ l) g2 s2
      | r2 => r2) = _
    rw [hstep]
    exact ih (fun q hq => hab q (by simp [hq])) l g s

theorem processFields_cons_date (cey : Int) (ent : String) (dfmts : List DateFormat)
    (row : Row) (r : FieldRule) (rest : List (String × FieldRule)) (g : RGraph)
    (s : Summary) (v : String) (hl : row.lookup "date" = some (some v))
    (hvv : r.valid_values = none) (hvm : r.valueMapping = none) :
    processFields cey ent dfmts row (("date", r) :: rest) g s =
      (match dateStep cey ent dfmts r.property v g s with
        | RowStep.cont g2 s2 => processFields cey ent dfmts row rest g2 s2
        | RowStep.stop g2 s2 => RowStep.stop g2 s2
        | RowStep.exn e g2 s2 => RowStep.exn e g2 s2) := by
  show (match fieldStep cey ent dfmts row ("date", r) g s with
    | RowStep.cont g2 s2 => processFields cey ent dfmts row rest g2 s2
    | r2 => r2) = _
  rw [fieldStep_date cey ent dfmts row r g s v hl hvv hvm]
  cases dateStep cey ent dfmts r.property v g s with
  | cont g2 s2 => rfl
  | stop g2 s2 => rfl
  | exn e g2 s2 => rfl

theorem transform_eq_processFields (row : Row) (m : SourceMapping) (g : RGraph)
    (cey : Int) (s : Summary) (fresh : String) (ent : String)
    (hf : formatUri m.uri_pattern row fresh m.cls = .ok ent) :
    transform_row_to_rdf row m g cey s fresh =
      (match processFields cey ent m.date_format row m.fields
          (insert (ent, rdfType, Node.uri m.cls) g) s with
        | RowStep.cont g2 s2 => (true, g2, s2)
        | RowStep.stop g2 s2 => (false, g2, s2)
        | RowStep.exn e g2 s2 =>
          (false, g2, { s2 with errors := s2.errors ++ [strOfErr e] })) := by
  unfold transform_row_to_rdf
  rw [hf]

theorem processFields_result_props (t : Triple) (cey : Int) (ent : String)
    (dfmts : List DateFormat) (row : Row) (rest : List (String × FieldRule))
    (hnd : ∀ p ∈ rest, p.1 ≠ "date") (gX : RGraph) (s : Summary) (hmem : t ∈ gX) :
    t ∈ (match processFields cey ent dfmts row rest gX s with
        | RowStep.cont g2 s2 => ((true : Bool), g2, s2)
        | RowStep.stop g2 s2 => ((false : Bool), g2, s2)
        | RowStep.exn e g2 s2 =>
          ((false : Bool), g2, { s2 with errors := s2.errors ++ [strOfErr e] })).2.1 ∧
      (match processFields cey ent dfmts row rest gX s with
        | RowStep.cont g2 s2 => ((true : Bool), g2, s2)
        | RowStep.stop g2 s2 => ((false : Bool), g2, s2)
        | RowStep.exn e g2 s2 =>
          ((false : Bool), g2,
            { s2 with errors := s2.errors ++ [strOfErr e] })).2.2.skipped_dates
        = s.skipped_dates := by
  have h2 := @processFields_graph_mono t cey ent dfmts row rest gX s hmem
  have h3 := @processFields_skipped cey ent dfmts row rest hnd gX s
  cases hp2 : processFields cey ent dfmts row rest gX s with
  | cont g2 s2 => rw [hp2] at h2 h3; exact ⟨h2, h3⟩
  | stop g2 s2 => rw [hp2] at h2 h3; exact ⟨h2, h3⟩
  | exn e g2 s2 => rw [hp2] at h2 h3; exact ⟨h2, h3⟩

/-- C1 counterexample: a mapping whose only field is the date field, format
`'%Y'`, row date `"20190"`, watermark 2000.  Normalisation succeeds (the
normalised string is `"20190"`) and its year 20190 is ≥ the watermark, yet
the row fails and the raw string lands in `skipped_dates`, because
`map_date_to_ontology` rejects the 5-character string — contradicting the
claim's "the entity is linked ... and nothing is added to skipped_dates". -/
theorem c1_counterexample :
    parse_date (some "20190") specimenDateMapping.date_format = .ok (some "20190") ∧
    ((2000 : Int) ≤ 20190) ∧
    (transform_row_to_rdf [("date", some "20190")] specimenDateMapping ∅ 2000
      emptySummary "u").1 = false ∧
    (transform_row_to_rdf [("date", some "20190")] specimenDateMapping ∅ 2000
      emptySummary "u").2.2.skipped_dates = insert "20190" (∅ : Finset String) := by
  refine ⟨by rfl, by decide, by rfl, by rfl⟩

/-- C1 amended: for a mapping that declares a date field (no value map or
valid-values set on it; no other `date` key; any fields declared before it
absent or NaN in the row, so the row reaches the date step) and a row with a
non-null date cell, the code behaves as the claim states in the failure
directions — normalisation failure or a year below the watermark records
the raw string in `skipped_dates` and fails the row — but the success
direction needs one more condition: when normalisation succeeds and the
year is ≥ the watermark, the entity is linked and `skipped_dates` is
untouched only if `map_date_to_ontology` yields a time entity; when it does
not (e.g. a normalised string of unrecognised length, such as a five-digit
year), the raw string is recorded in `skipped_dates` and the row fails. -/
theorem c1_date_amended :
    ∀ (m : SourceMapping) (r : FieldRule) (pre rest : List (String × FieldRule))
      (row : Row) (g : RGraph) (cey : Int) (s : Summary) (fresh : String) (v ent : String),
      m.fields = pre ++ ("date", r) :: rest →
      (∀ p ∈ pre, row.lookup p.1 = none ∨ row.lookup p.1 = some none) →
      (∀ p ∈ rest, p.1 ≠ "date") →
      r.valid_values = none →
      r.valueMapping = none →
      row.lookup "date" = some (some v) →
      formatUri m.uri_pattern row fresh m.cls = .ok ent →
      ((parse_date (some v) m.date_format = .ok none →
        (transform_row_to_rdf row m g cey s fresh).1 = false ∧
        (transform_row_to_rdf row m g cey s fresh).2.2.skipped_dates =
          insert v s.skipped_dates) ∧
      (∀ d yr, parse_date (some v) m.date_format = .ok (some d) →
        yearOfParsed d = .ok yr →
        ((yr < cey →
          (transform_row_to_rdf row m g cey s fresh).1 = false ∧
          (transform_row_to_rdf row m g cey s fresh).2.2.skipped_dates =
            insert v s.skipped_dates) ∧
        (cey ≤ yr →
          (∀ du, (map_date_to_ontology d (insert (ent, rdfType, Node.uri m.cls) g) cey).2
              = some du →
            (ent, r.property, Node.uri du) ∈
              (transform_row_to_rdf row m g cey s fresh).2.1 ∧
            (transform_row_to_rdf row m g cey s fresh).2.2.skipped_dates =
              s.skipped_dates) ∧
          ((map_date_to_ontology d (insert (ent, rdfType, Node.uri m.cls) g) cey).2
              = none →
            (transform_row_to_rdf row m g cey s fresh).1 = false ∧
            (transform_row_to_rdf row m g cey s fresh).2.2.skipped_dates =
              insert v s.skipped_dates))))) := by
  intro m r pre rest row g cey s fresh v ent hfields hab hnd hvv hvm hl hf
  have hT := transform_eq_processFields row m g cey s fresh ent hf
  have hPF0 : processFields cey ent m.date_format row m.fields
      (insert (ent, rdfType, Node.uri m.cls) g) s =
      (match dateStep cey ent m.date_format r.property v
          (insert (ent, rdfType, Node.uri m.cls) g) s with
        | RowStep.cont g2 s2 => processFields cey ent m.date_format row rest g2 s2
        | RowStep.stop g2 s2 => RowStep.stop g2 s2
        | RowStep.exn e g2 s2 => RowStep.exn e g2 s2) := by
    rw [hfields, processFields_skip_absent cey ent m.date_format row pre hab]
    exact processFields_cons_date cey ent m.date_format row r rest _ s v hl hvv hvm
  constructor
  · intro hp
    have hds := dateStep_none cey ent m.date_format r.property v
      (insert (ent, rdfType, Node.uri m.cls) g) s hp
    rw [hT, hPF0, hds]
    exact ⟨rfl, rfl⟩
  · intro d yr hp hy
    constructor
    · intro hlt
      have hds := dateStep_below cey ent m.date_format r.property v
        (insert (ent, rdfType, Node.uri m.cls) g) s d yr hp hy hlt
      rw [hT, hPF0, hds]
      exact ⟨rfl, rfl⟩
    · intro hge
      constructor
      · intro du hdu
        have hds := dateStep_link cey ent m.date_format r.property v
          (insert (ent, rdfType, Node.uri m.cls) g) s d yr hp hy hge du hdu
        rw [hT, hPF0, hds]
        exact processFields_result_props (ent, r.property, Node.uri du) cey ent
          m.date_format row rest hnd _ s (Finset.mem_insert_self _ _)
      · intro hdu
        have hds := dateStep_nolink cey ent m.date_format r.property v
          (insert (ent, rdfType, Node.uri m.cls) g) s d yr hp hy hge hdu
        rw [hT, hPF0, hds]
        exact ⟨rfl, rfl⟩

/-- C1 witness: the success direction instantiated — date `"2021"` under
`'%Y'`, watermark 2000; the time entity is the shared `Year/2021` node, the
link triple is in the produced graph, and `skipped_dates` stays empty. -/
theorem c1_date_amended_witness :
    ("E/C_u", specimenDateRule.property,
      Node.uri (timeNS ++ "Year/" ++ "2021")) ∈
      (transform_row_to_rdf [("date", some "2021")] specimenDateMapping ∅ 2000
        emptySummary "u").2.1 ∧
    (transform_row_to_rdf [("date", some "2021")] specimenDateMapping ∅ 2000
      emptySummary "u").2.2.skipped_dates = emptySummary.skipped_dates :=
  ((c1_date_amended specimenDateMapping specimenDateRule [] [] [("date", some "2021")] ∅
      2000 emptySummary "u" "2021" "E/C_u" rfl (by simp) (by simp) rfl rfl rfl rfl).2
    "2021" 2021 rfl rfl).2 (by decide) |>.1 (timeNS ++ "Year/" ++ "2021") rfl

end ETL
